import Mathlib

/-!
Verification of the PromptSys hierarchy-and-context-budget analysis engine.

Shallow embedding of the TypeScript sources:
  * `src/services/contextManager.ts`  (ContextManager, TokenEstimator)
  * the conflict-detector module      (ConflictDetector, hierarchy branch)
  * `src/services/agentServices.ts`   (HierarchyAnalyzer.calculateMetrics)

Modelling conventions:
  * JS numbers are modelled as `Rat` (all arithmetic in the engine is exact
    on the rationals; `Math.floor` becomes `Int.floor` cast back to `Rat`).
  * A JS division that can produce `NaN` (division by zero where the
    numerator is also zero, e.g. `0/0` on empty inputs) is modelled with
    `Option Rat`, `none` standing for `NaN`.  In every such place in this
    code base a zero denominator forces a zero numerator, so `none`
    faithfully captures exactly the JS `NaN` outcomes.
  * Optional TS fields become `Option` fields; JS truthiness tests on
    strings / numbers are modelled explicitly (`jsTruthyStr`, `jsOrQ`,
    `natOr`): `0` and the empty string are falsy.
  * Unbounded JS recursion / `while` loops are modelled with an explicit
    fuel parameter; at each call site the fuel passed is large enough that
    exhaustion is unreachable for the executions the theorems talk about.
-/

/- The Batteries `Rat` operations are `@[irreducible]`, which blocks the
evaluation of concrete instances by `decide`; computing with them is
exactly what the witnesses below need, so they are unsealed for this
file. -/
attribute [local semireducible] Rat.mul Rat.add Rat.sub Rat.inv Rat.ofScientific

/-- Altitude enum, in source declaration order (`PromptAltitude`). -/
inductive PromptAltitude : Type
| META
| STRATEGIC
| TACTICAL
| OPERATIONAL
| IMPLEMENTATION
deriving DecidableEq, Repr

/-- Scope enum, in source declaration order (`PromptScope`). -/
inductive PromptScope : Type
| GLOBAL
| SESSION
| TASK
| LOCAL
| CONDITIONAL
deriving DecidableEq, Repr

/-- `compressionHint` values. -/
inductive CompressionHint : Type
| preserve
| summarize
| optionalHint
| defer
deriving DecidableEq, Repr

/-- Conflict type tags used by the hierarchy detectors. -/
inductive ConflictType : Type
| CIRCULAR_DEPENDENCY
| CONTRADICTORY_INSTRUCTIONS
| AMBIGUOUS_RELATIONSHIP
| MISSING_DEPENDENCY
| DUPLICATE_CONTENT
| ORPHANED_NODE
deriving DecidableEq, Repr

/-- Conflict severity. -/
inductive Severity : Type
| low
| medium
| high
deriving DecidableEq, Repr

/-- The fields of a prompt node that the analysis engine reads
(`PromptNode` with the hierarchical extension fields; all hierarchy
fields are optional in TS). -/
structure PromptNode : Type where
  id : String
  title : String
  content : String
  category : String
  parentId : Option String
  childIds : Option (List String)
  depth : Option Int
  altitude : Option PromptAltitude
  scope : Option PromptScope
  contextPriority : Option Nat
  specificity : Option Rat
  flexibility : Option Rat
  tokenBudget : Option Nat
  estimatedTokens : Option Nat
  compressionHint : Option CompressionHint
  isTemplate : Bool
deriving DecidableEq, Repr

/-- Edge fields used by the metrics calculator. -/
structure PromptEdge : Type where
  id : String
  source : String
  target : String
deriving DecidableEq, Repr

/-- JS truthiness of an optional string: absent and `""` are falsy. -/
def jsTruthyStr (o : Option String) : Bool :=
  match o with
  | some s => !s.isEmpty
  | none => false

/-- JS `x || d` for an optional number: absent and `0` fall back to `d`. -/
def jsOrQ (o : Option Rat) (d : Rat) : Rat :=
  match o with
  | some x => if x = 0 then d else x
  | none => d

/-- JS `x || d` for an optional natural number field. -/
def natOr (o : Option Nat) (d : Nat) : Nat :=
  match o with
  | some k => if k = 0 then d else k
  | none => d

/-- JS `x || d` where `x` is an optional natural-number field and the
fallback `d` is an arbitrary JS number (`estimatedTokens || floor(...)`). -/
def natOrQ (o : Option Nat) (d : Rat) : Rat :=
  match o with
  | some k => if k = 0 then d else (k : Rat)
  | none => d

/-- `Math.floor` on a JS number, staying inside `Rat` (via `Rat.floor`,
which computes; `jsFloor_eq_floor` below relates it to `Int.floor`). -/
def jsFloor (q : Rat) : Rat := (q.floor : Int)

/-- JS division where the denominator may be zero.  `none` models the JS
`NaN` result; in this code base a zero denominator always comes with a
zero numerator, so `none` is exactly the `NaN` case. -/
def jsDiv (a b : Rat) : Option Rat :=
  if b = 0 then none else some (a / b)

/-- `1 - x` lifted over the `NaN` model. -/
def jsOneSub (o : Option Rat) : Option Rat :=
  match o with
  | some x => some (1 - x)
  | none => none

/-- Average of two JS numbers lifted over the `NaN` model. -/
def jsAvg2 (a b : Option Rat) : Option Rat :=
  match a, b with
  | some x, some y => some ((x + y) / 2)
  | _, _ => none

/-- `Math.min(...xs)` for a non-empty list (call sites guard emptiness;
the `[]` value is junk and never reached by any theorem below). -/
def listMinQ : List Rat → Rat
  | [] => 0
  | x :: t => t.foldl min x

/-- `Math.max(...xs)` for a non-empty list (same remark as `listMinQ`). -/
def listMaxQ : List Rat → Rat
  | [] => 0
  | x :: t => t.foldl max x

/-- `Math.max(...xs)` on integers, seeded head-first. -/
def listMaxZ : List Int → Int
  | [] => 0
  | x :: t => t.foldl max x

/-- `Math.min(...xs)` on integers, seeded head-first. -/
def listMinZ : List Int → Int
  | [] => 0
  | x :: t => t.foldl min x

/-! ## Token estimator (`TokenEstimator`) -/

/-- `estimate(text) = Math.ceil(text.length / 4)`. -/
def TokenEstimator.estimate (text : String) : Nat :=
  (text.length + 3) / 4

/-- `estimateNode`: title + content estimates plus a 10-token overhead. -/
def TokenEstimator.estimateNode (node : PromptNode) : Nat :=
  TokenEstimator.estimate node.title + TokenEstimator.estimate node.content + 10

/-- `estimateTotal`: sum of `estimateNode` over the collection. -/
def TokenEstimator.estimateTotal (nodes : List PromptNode) : Nat :=
  (nodes.map TokenEstimator.estimateNode).sum

/-! ## Context manager data model (`ContextWindow` and friends) -/

/-- One allocation record.  The source field `compressionRatio` is called
`compressionFactor` here. -/
structure ContextAllocation : Type where
  nodeId : String
  allocated : Rat
  used : Rat
  priority : Rat
  compressible : Bool
  compressionFactor : Rat
deriving DecidableEq, Repr

/-- Result of compacting one node (`CompactedNode`). -/
structure CompactedNode : Type where
  nodeId : String
  originalTokens : Rat
  compressedTokens : Rat
  compressionMethod : String
  canRestore : Bool
deriving DecidableEq, Repr

/-- One entry of `compactionHistory`.  The source also stores a wall-clock
`timestamp : Date`, which is not representable in a pure model and carries
no information any claim depends on; it is omitted. -/
structure CompactionEvent : Type where
  trigger : String
  beforeUsed : Rat
  afterUsed : Rat
  nodesCompacted : List String
  savedTokens : Rat
deriving DecidableEq, Repr

/-- Result record of `compact`.  The source sets `errors` to `undefined`
when the list is empty; since the simulated `compactNode` never throws,
the list is always empty and is modelled as `List String`. -/
structure CompactionResult : Type where
  success : Bool
  tokensSaved : Rat
  nodesCompacted : List CompactedNode
  newAllocations : List ContextAllocation
  errors : List String
deriving DecidableEq, Repr

/-- The context window state owned by `ContextManager`. -/
structure ContextWindow : Type where
  totalBudget : Rat
  used : Rat
  remaining : Rat
  allocations : List ContextAllocation
  compactionEnabled : Bool
  compactionThreshold : Rat
  preserveNodeIds : List String
  compactionHistory : List CompactionEvent
deriving DecidableEq, Repr

/-- The constructor of `ContextManager`. -/
def ContextManager.initWindow (totalBudget : Rat) : ContextWindow :=
  { totalBudget := totalBudget
    used := 0
    remaining := totalBudget
    allocations := []
    compactionEnabled := true
    compactionThreshold := 0.8
    preserveNodeIds := []
    compactionHistory := [] }

/-- `setPreserveNodes`. -/
def ContextManager.setPreserveNodes (w : ContextWindow) (nodeIds : List String) :
    ContextWindow :=
  { w with preserveNodeIds := nodeIds }

/-- `updateUsage`: recompute `used` and `remaining` from the allocations. -/
def ContextManager.updateUsage (w : ContextWindow) : ContextWindow :=
  { w with
      used := (w.allocations.map ContextAllocation.used).sum
      remaining := w.totalBudget - (w.allocations.map ContextAllocation.used).sum }

/-- `allocateEqually(nodes, budget, priority, compressible)`. -/
def ContextManager.allocateEqually (nodes : List PromptNode) (budget : Rat)
    (priority : Rat) (compressible : Bool) : List ContextAllocation :=
  if nodes.length = 0 then []
  else
    let perNode := jsFloor (budget / (nodes.length : Rat))
    nodes.map fun node =>
      { nodeId := node.id
        allocated := perNode
        used := natOrQ node.estimatedTokens (jsFloor (perNode * 0.8))
        priority := priority
        compressible := compressible
        compressionFactor := 1 }

/-- Per-altitude weight table of `allocateByAltitude`. -/
def ContextManager.altitudeWeight : PromptAltitude → Rat
  | PromptAltitude.META => 0.30
  | PromptAltitude.STRATEGIC => 0.25
  | PromptAltitude.TACTICAL => 0.20
  | PromptAltitude.OPERATIONAL => 0.15
  | PromptAltitude.IMPLEMENTATION => 0.10

/-- `altitudeToPriority`. -/
def ContextManager.altitudeToPriority : PromptAltitude → Rat
  | PromptAltitude.META => 100
  | PromptAltitude.STRATEGIC => 80
  | PromptAltitude.TACTICAL => 60
  | PromptAltitude.OPERATIONAL => 40
  | PromptAltitude.IMPLEMENTATION => 20

/-- `isAltitudeCompressible`: only OPERATIONAL and IMPLEMENTATION. -/
def ContextManager.isAltitudeCompressible : PromptAltitude → Bool
  | PromptAltitude.OPERATIONAL => true
  | PromptAltitude.IMPLEMENTATION => true
  | _ => false

/-- The fixed iteration order of `Object.entries` over the altitude groups
(insertion order = enum declaration order). -/
def altitudeList : List PromptAltitude :=
  [PromptAltitude.META, PromptAltitude.STRATEGIC, PromptAltitude.TACTICAL,
   PromptAltitude.OPERATIONAL, PromptAltitude.IMPLEMENTATION]

/-- `groupByAltitude`, one group: nodes at altitude `a`
(`n.altitude || TACTICAL`). -/
def ContextManager.altitudeGroup (nodes : List PromptNode) (a : PromptAltitude) :
    List PromptNode :=
  nodes.filter fun n => n.altitude.getD PromptAltitude.TACTICAL = a

/-- `allocateByAltitude`. -/
def ContextManager.allocateByAltitude (nodes : List PromptNode) (budget : Rat) :
    List ContextAllocation :=
  altitudeList.flatMap fun alt =>
    ContextManager.allocateEqually
      (ContextManager.altitudeGroup nodes alt)
      (budget * ContextManager.altitudeWeight alt)
      (ContextManager.altitudeToPriority alt)
      (ContextManager.isAltitudeCompressible alt)

/-- Effective priority of a node: `node.contextPriority || 50`. -/
def ContextManager.prioOf (node : PromptNode) : Rat :=
  (natOr node.contextPriority 50 : Nat)

/-- `allocateByPriority`.  Note that `used` floors the *raw* (unfloored)
allocated value times 0.8, exactly as the source does. -/
def ContextManager.allocateByPriority (nodes : List PromptNode) (budget : Rat) :
    List ContextAllocation :=
  let totalPriority : Rat := (nodes.map ContextManager.prioOf).sum
  nodes.map fun node =>
    let priority := ContextManager.prioOf node
    let allocatedRaw := (priority / totalPriority) * budget
    { nodeId := node.id
      allocated := jsFloor allocatedRaw
      used := natOrQ node.estimatedTokens (jsFloor (allocatedRaw * 0.8))
      priority := priority
      compressible := node.compressionHint ≠ some CompressionHint.preserve
      compressionFactor := 1 }

/-! The JS `Map` used by `mergeAllocations` is modelled as an
insertion-ordered association list: `set` on an existing key replaces the
value in place, `set` on a new key appends. -/

/-- `Map.get`. -/
def alLookup (m : List (String × ContextAllocation)) (k : String) :
    Option ContextAllocation :=
  match m with
  | [] => none
  | e :: t => if e.1 = k then some e.2 else alLookup t k

/-- `Map.set` (replace in place, else append). -/
def alSet (m : List (String × ContextAllocation)) (k : String)
    (v : ContextAllocation) : List (String × ContextAllocation) :=
  match m with
  | [] => [(k, v)]
  | e :: t => if e.1 = k then (k, v) :: t else e :: alSet t k v

/-- One step of the merge loop: replace only on strictly greater
`allocated`. -/
def mergeStep (m : List (String × ContextAllocation)) (a : ContextAllocation) :
    List (String × ContextAllocation) :=
  match alLookup m a.nodeId with
  | none => alSet m a.nodeId a
  | some existing =>
    if a.allocated > existing.allocated then alSet m a.nodeId a else m

/-- `mergeAllocations(allocationSets)`. -/
def ContextManager.mergeAllocations
    (allocationSets : List (List ContextAllocation)) : List ContextAllocation :=
  ((allocationSets.flatMap id).foldl mergeStep []).map Prod.snd

/-- `allocateBudget`: the three passes, merged, written into the window. -/
def ContextManager.allocateBudget (w : ContextWindow) (nodes : List PromptNode) :
    ContextWindow :=
  let globalNodes := nodes.filter fun n => n.scope = some PromptScope.GLOBAL
  let globalAllocs :=
    ContextManager.allocateEqually globalNodes (w.totalBudget * 0.3) 100 false
  let altitudeAllocs := ContextManager.allocateByAltitude nodes (w.totalBudget * 0.4)
  let priorityAllocs := ContextManager.allocateByPriority nodes (w.totalBudget * 0.3)
  let merged :=
    ContextManager.mergeAllocations [globalAllocs, altitudeAllocs, priorityAllocs]
  ContextManager.updateUsage { w with allocations := merged }

/-- Stable insertion (after equal keys) used to model the JS stable
ascending sort by `priority`. -/
def insertByPriority (a : ContextAllocation) :
    List ContextAllocation → List ContextAllocation
  | [] => [a]
  | b :: t =>
    if a.priority < b.priority then a :: b :: t else b :: insertByPriority a t

/-- Stable ascending sort by `priority` (JS `Array.prototype.sort` with the
comparator `a.priority - b.priority` is stable). -/
def sortByPriority (l : List ContextAllocation) : List ContextAllocation :=
  l.foldl (fun acc a => insertByPriority a acc) []

/-- `compactNode`: fixed simulated 50% compression. -/
def ContextManager.compactNode (allocation : ContextAllocation) : CompactedNode :=
  { nodeId := allocation.nodeId
    originalTokens := allocation.used
    compressedTokens := jsFloor (allocation.used * 0.5)
    compressionMethod := "summarize"
    canRestore := true }

/-- The candidate loop of `compact`: stop once `tokensSaved` meets the
target (checked before each candidate, as in the source `for`/`break`). -/
def compactLoop (target : Rat) :
    List ContextAllocation → Rat → List CompactedNode →
    (List CompactedNode × Rat)
  | [], saved, acc => (acc, saved)
  | a :: rest, saved, acc =>
    if saved ≥ target then (acc, saved)
    else
      let cn := ContextManager.compactNode a
      compactLoop target rest (saved + (cn.originalTokens - cn.compressedTokens))
        (acc ++ [cn])

/-- `compact(targetReduction)`: returns the result record and the updated
window.  The simulated `compactNode` never throws, so `errors` is `[]`. -/
def ContextManager.compact (w : ContextWindow) (targetReduction : Rat) :
    CompactionResult × ContextWindow :=
  let compactableNodes :=
    sortByPriority (w.allocations.filter fun a =>
      a.compressible && !(w.preserveNodeIds.contains a.nodeId))
  let res := compactLoop targetReduction compactableNodes 0 []
  let compacted := res.1
  let tokensSaved := res.2
  let newAllocations := w.allocations.map fun alloc =>
    match compacted.find? (fun c => c.nodeId = alloc.nodeId) with
    | some ci =>
      { alloc with
          used := ci.compressedTokens
          compressionFactor := ci.originalTokens / ci.compressedTokens }
    | none => alloc
  let event : CompactionEvent :=
    { trigger := "manual"
      beforeUsed := w.used
      afterUsed := w.used - tokensSaved
      nodesCompacted := compacted.map CompactedNode.nodeId
      savedTokens := tokensSaved }
  let w2 :=
    ContextManager.updateUsage
      { w with
          compactionHistory := w.compactionHistory ++ [event]
          allocations := newAllocations }
  ({ success := tokensSaved ≥ targetReduction
     tokensSaved := tokensSaved
     nodesCompacted := compacted
     newAllocations := newAllocations
     errors := [] }, w2)

/-! ## Conflict detector (hierarchy branch of `ConflictDetector`) -/

/-- A detected conflict (the `edgeIds` field is only ever set by the
edge-based detectors, which the hierarchy branch does not use). -/
structure Conflict : Type where
  id : String
  type : ConflictType
  severity : Severity
  nodeIds : List String
  description : String
  suggestions : List String
deriving DecidableEq, Repr

/-- The string value of an altitude enum member (JS template rendering). -/
def altitudeStrVal : PromptAltitude → String
  | PromptAltitude.META => "meta"
  | PromptAltitude.STRATEGIC => "strategic"
  | PromptAltitude.TACTICAL => "tactical"
  | PromptAltitude.OPERATIONAL => "operational"
  | PromptAltitude.IMPLEMENTATION => "implementation"

/-- The string value of a scope enum member. -/
def scopeStrVal : PromptScope → String
  | PromptScope.GLOBAL => "global"
  | PromptScope.SESSION => "session"
  | PromptScope.TASK => "task"
  | PromptScope.LOCAL => "local"
  | PromptScope.CONDITIONAL => "conditional"

/-- JS template rendering of an optional altitude. -/
def optAltStr (o : Option PromptAltitude) : String :=
  match o with
  | some a => altitudeStrVal a
  | none => "undefined"

/-- JS template rendering of an optional scope. -/
def optScopeStr (o : Option PromptScope) : String :=
  match o with
  | some s => scopeStrVal s
  | none => "undefined"

/-- JS template rendering of an optional number. -/
def optNatStr (o : Option Nat) : String :=
  match o with
  | some n => toString n
  | none => "undefined"

/-- JS template rendering of an optional integer. -/
def optIntStr (o : Option Int) : String :=
  match o with
  | some n => toString n
  | none => "undefined"

/-- The ordered altitude scale used by `detectAltitudeInconsistency`. -/
def altitudeOrder : List PromptAltitude :=
  [PromptAltitude.META, PromptAltitude.STRATEGIC, PromptAltitude.TACTICAL,
   PromptAltitude.OPERATIONAL, PromptAltitude.IMPLEMENTATION]

/-- The ordered scope scale used by `detectScopeConflicts`
(broadest last). -/
def scopeOrder : List PromptScope :=
  [PromptScope.LOCAL, PromptScope.CONDITIONAL, PromptScope.TASK,
   PromptScope.SESSION, PromptScope.GLOBAL]

/-- The conflict emitted for a parent/child priority inversion. -/
def ConflictDetector.priorityConflict (node parent : PromptNode) : Conflict :=
  { id := "priority-mismatch-" ++ node.id
    type := ConflictType.AMBIGUOUS_RELATIONSHIP
    severity := Severity.medium
    nodeIds := [node.id, parent.id]
    description :=
      "\"" ++ node.title ++ "\" (priority " ++ optNatStr node.contextPriority ++
      ") has higher priority than its parent \"" ++ parent.title ++
      "\" (priority " ++ optNatStr parent.contextPriority ++ ")"
    suggestions :=
      ["Adjust priorities so parent has equal or higher priority than children",
       "Consider whether this is truly a parent-child relationship",
       "Review context budget allocation strategy"] }

/-- Per-node body of `detectParentChildPriorityMismatch`. -/
def ConflictDetector.priorityCheck (nodes : List PromptNode) (node : PromptNode) :
    List Conflict :=
  match node.parentId, node.contextPriority with
  | some pid, some cp =>
    if pid = "" then []
    else
      match nodes.find? (fun n => n.id = pid) with
      | some parent =>
        match parent.contextPriority with
        | some pp =>
          if cp > pp then [ConflictDetector.priorityConflict node parent] else []
        | none => []
      | none => []
  | _, _ => []

/-- `detectParentChildPriorityMismatch`. -/
def ConflictDetector.detectParentChildPriorityMismatch (nodes : List PromptNode) :
    List Conflict :=
  nodes.flatMap (ConflictDetector.priorityCheck nodes)

/-- The conflict emitted for an altitude inversion. -/
def ConflictDetector.altitudeConflict (node parent : PromptNode) : Conflict :=
  { id := "altitude-inconsistency-" ++ node.id
    type := ConflictType.AMBIGUOUS_RELATIONSHIP
    severity := Severity.high
    nodeIds := [node.id, parent.id]
    description :=
      "\"" ++ node.title ++ "\" (" ++ optAltStr node.altitude ++
      ") is at higher altitude than its parent \"" ++ parent.title ++ "\" (" ++
      optAltStr parent.altitude ++
      "). Children should be at same or lower altitude."
    suggestions :=
      ["Adjust altitude levels to maintain hierarchy (parent should be higher)",
       "Review parent-child relationship - may be incorrect",
       "Consider restructuring the hierarchy"] }

/-- Per-node body of `detectAltitudeInconsistency`. -/
def ConflictDetector.altitudeCheck (nodes : List PromptNode) (node : PromptNode) :
    List Conflict :=
  match node.parentId, node.altitude with
  | some pid, some na =>
    if pid = "" then []
    else
      match nodes.find? (fun n => n.id = pid) with
      | some parent =>
        match parent.altitude with
        | some pa =>
          if altitudeOrder.indexOf na < altitudeOrder.indexOf pa then
            [ConflictDetector.altitudeConflict node parent]
          else []
        | none => []
      | none => []
  | _, _ => []

/-- `detectAltitudeInconsistency`. -/
def ConflictDetector.detectAltitudeInconsistency (nodes : List PromptNode) :
    List Conflict :=
  nodes.flatMap (ConflictDetector.altitudeCheck nodes)

/-- The conflict emitted for a scope inversion. -/
def ConflictDetector.scopeConflict (node parent : PromptNode) : Conflict :=
  { id := "scope-conflict-" ++ node.id
    type := ConflictType.AMBIGUOUS_RELATIONSHIP
    severity := Severity.medium
    nodeIds := [node.id, parent.id]
    description :=
      "\"" ++ node.title ++ "\" (" ++ optScopeStr node.scope ++
      " scope) has broader scope than its parent \"" ++ parent.title ++
      "\" (" ++ optScopeStr parent.scope ++ " scope)"
    suggestions :=
      ["Children typically inherit or narrow their parent\x27s scope",
       "Review if this relationship makes semantic sense",
       "Consider promoting child to sibling or higher level"] }

/-- Per-node body of `detectScopeConflicts`. -/
def ConflictDetector.scopeCheck (nodes : List PromptNode) (node : PromptNode) :
    List Conflict :=
  match node.parentId, node.scope with
  | some pid, some ns =>
    if pid = "" then []
    else
      match nodes.find? (fun n => n.id = pid) with
      | some parent =>
        match parent.scope with
        | some ps =>
          if scopeOrder.indexOf ns > scopeOrder.indexOf ps then
            [ConflictDetector.scopeConflict node parent]
          else []
        | none => []
      | none => []
  | _, _ => []

/-- `detectScopeConflicts`. -/
def ConflictDetector.detectScopeConflicts (nodes : List PromptNode) :
    List Conflict :=
  nodes.flatMap (ConflictDetector.scopeCheck nodes)

/-- The conflict emitted when the parent-chain walk meets an id already on
the current path. -/
def ConflictDetector.cycleConflict (nodes : List PromptNode) (cur : PromptNode)
    (path : List String) : Conflict :=
  let cycleStart := path.indexOf cur.id
  let cycleNodes := path.drop cycleStart
  let cycleNodeObjects := cycleNodes.filterMap fun i => nodes.find? (fun n => n.id = i)
  { id := "parent-cycle-" ++ cur.id
    type := ConflictType.CIRCULAR_DEPENDENCY
    severity := Severity.high
    nodeIds := cycleNodes
    description :=
      "Circular parent-child reference detected: " ++
      String.intercalate " → " (cycleNodeObjects.map PromptNode.title)
    suggestions :=
      ["Break the cycle by removing one parent reference",
       "Restructure the hierarchy to remove circular dependencies"] }

/-- The `while` loop of `detectCircularParentReferences`, with fuel.  Each
iteration adds a previously unvisited node id to `visited`, so at most
`nodes.length + 1` iterations ever run; the caller passes that much fuel,
making the fuel-exhaustion branch unreachable.  Returns the grown visited
set and the conflicts emitted by this walk. -/
def ConflictDetector.walkParent (nodes : List PromptNode) :
    Nat → Option PromptNode → List String → List String →
    (List String × List Conflict)
  | 0, _, _, visited => (visited, [])
  | _ + 1, none, _, visited => (visited, [])
  | fuel + 1, some cur, path, visited =>
    if cur.id ∈ visited then (visited, [])
    else if cur.id ∈ path then
      (visited, [ConflictDetector.cycleConflict nodes cur path])
    else
      ConflictDetector.walkParent nodes fuel
        (match cur.parentId with
         | some pid => if pid = "" then none else nodes.find? (fun n => n.id = pid)
         | none => none)
        (path ++ [cur.id]) (visited ++ [cur.id])

/-- The per-node body of `detectCircularParentReferences`: skip nodes
already globally visited, otherwise walk the parent chain from scratch. -/
def ConflictDetector.cycleStep (nodes : List PromptNode)
    (st : List String × List Conflict) (node : PromptNode) :
    List String × List Conflict :=
  if node.id ∈ st.1 then st
  else
    let res :=
      ConflictDetector.walkParent nodes (nodes.length + 1) (some node) [] st.1
    (res.1, st.2 ++ res.2)

/-- `detectCircularParentReferences`: iterate over all nodes, sharing the
globally visited set, collecting the conflicts of each walk. -/
def ConflictDetector.detectCircularParentReferences (nodes : List PromptNode) :
    List Conflict :=
  (nodes.foldl (ConflictDetector.cycleStep nodes) ([], [])).2

/-- The conflict emitted for a depth inconsistency. -/
def ConflictDetector.depthConflict (node parent : PromptNode) : Conflict :=
  { id := "depth-inconsistency-" ++ node.id
    type := ConflictType.AMBIGUOUS_RELATIONSHIP
    severity := Severity.low
    nodeIds := [node.id, parent.id]
    description :=
      "\"" ++ node.title ++ "\" has depth " ++ optIntStr node.depth ++
      " but parent \"" ++ parent.title ++ "\" has depth " ++
      optIntStr parent.depth ++ ". Expected child depth: " ++
      toString (parent.depth.getD 0 + 1)
    suggestions :=
      ["Recalculate depth values based on hierarchy",
       "Update depth when moving nodes in hierarchy"] }

/-- Per-node body of `detectDepthInconsistency`.  Note the source tests
`parentId !== undefined` here (no truthiness), so an empty-string
`parentId` is looked up. -/
def ConflictDetector.depthCheck (nodes : List PromptNode) (node : PromptNode) :
    List Conflict :=
  match node.parentId, node.depth with
  | some pid, some nd =>
    (match nodes.find? (fun n => n.id = pid) with
     | some parent =>
       match parent.depth with
       | some pd =>
         if nd ≠ pd + 1 then [ConflictDetector.depthConflict node parent] else []
       | none => []
     | none => [])
  | _, _ => []

/-- `detectDepthInconsistency`. -/
def ConflictDetector.detectDepthInconsistency (nodes : List PromptNode) :
    List Conflict :=
  nodes.flatMap (ConflictDetector.depthCheck nodes)

/-- The `hasHierarchy` guard: at least one node exposes a hierarchy field
(JS truthiness on `parentId`, presence of `altitude`/`scope`). -/
def hasHierarchy (nodes : List PromptNode) : Bool :=
  nodes.any fun n => jsTruthyStr n.parentId || n.altitude.isSome || n.scope.isSome

/-- `detectHierarchyConflicts`: the five hierarchy detectors, concatenated
in source order, guarded by `hasHierarchy`. -/
def ConflictDetector.detectHierarchyConflicts (nodes : List PromptNode) :
    List Conflict :=
  if hasHierarchy nodes then
    ConflictDetector.detectParentChildPriorityMismatch nodes ++
    ConflictDetector.detectAltitudeInconsistency nodes ++
    ConflictDetector.detectScopeConflicts nodes ++
    ConflictDetector.detectCircularParentReferences nodes ++
    ConflictDetector.detectDepthInconsistency nodes
  else []

/-! ## Hierarchy metrics (`HierarchyAnalyzer.calculateMetrics`) -/

/-- A min/max/avg triple. -/
structure RangeStat : Type where
  min : Rat
  max : Rat
  avg : Rat
deriving DecidableEq, Repr

/-- The metrics snapshot.  Fields computed by an unguarded JS division
(`cohesionScore`, `templateUsage`) are `Option Rat`, `none` = `NaN`. -/
structure HierarchyMetrics : Type where
  maxDepth : Int
  avgDepth : Rat
  totalNodes : Nat
  leafNodes : Nat
  rootNodes : Nat
  balanceFactor : Rat
  fanout : RangeStat
  altitudeDistribution : PromptAltitude → Nat
  specificityRange : RangeStat
  flexibilityRange : RangeStat
  totalTokens : Nat
  avgTokensPerNode : Rat
  budgetUtilization : Rat
  scopeDistribution : PromptScope → Nat
  cyclomaticComplexity : Int
  couplingScore : Rat
  cohesionScore : Option Rat
  orphanedNodes : Nat
  redundancyScore : Rat
  conflictDensity : Rat
  templateUsage : Option Rat

/-- `calculateSubtreeDepth`, with fuel standing in for the unguarded JS
recursion (the source stack-overflows on `childIds` cycles; callers pass
`nodes.length + 1` fuel, enough for every acyclic child graph). -/
def HierarchyAnalyzer.calculateSubtreeDepth (nodes : List PromptNode) :
    Nat → String → Int
  | 0, _ => 1
  | fuel + 1, nodeId =>
    match nodes.find? (fun n => n.id = nodeId) with
    | none => 1
    | some node =>
      match node.childIds with
      | none => 1
      | some [] => 1
      | some cs =>
        1 + listMaxZ (cs.map fun c =>
          HierarchyAnalyzer.calculateSubtreeDepth nodes fuel c)

/-- `calculateBalanceFactor`. -/
def HierarchyAnalyzer.calculateBalanceFactor (nodes : List PromptNode) : Rat :=
  let roots := nodes.filter fun n => !(jsTruthyStr n.parentId)
  if roots.length = 0 then 1
  else
    let depths := roots.map fun root =>
      HierarchyAnalyzer.calculateSubtreeDepth nodes (nodes.length + 1) root.id
    let maxDepth := listMaxZ depths
    let minDepth := listMinZ depths
    if maxDepth = 0 then 1 else (minDepth : Rat) / (maxDepth : Rat)

/-- `calculateBudgetUtilization`. -/
def HierarchyAnalyzer.calculateBudgetUtilization (nodes : List PromptNode) : Rat :=
  let budgeted := nodes.filter fun n => natOr n.tokenBudget 0 ≠ 0
  if budgeted.length = 0 then 0
  else
    let totalBudget : Rat := ((budgeted.map fun n => n.tokenBudget.getD 0).sum : Nat)
    let totalUsed : Rat := ((budgeted.map fun n => n.estimatedTokens.getD 0).sum : Nat)
    if totalBudget > 0 then totalUsed / totalBudget else 0

/-- The `dfs` of `countConnectedComponents` (undirected adjacency), with
fuel bounding the nesting depth; the caller passes more fuel than there
are distinct ids in the graph, so exhaustion is unreachable. -/
def HierarchyAnalyzer.dfsComp (edges : List PromptEdge) :
    Nat → String → List String → List String
  | 0, _, visited => visited
  | fuel + 1, nodeId, visited =>
    if visited.contains nodeId then visited
    else
      (edges.filter fun e => e.source == nodeId || e.target == nodeId).foldl
        (fun vis e =>
          HierarchyAnalyzer.dfsComp edges fuel
            (if e.source = nodeId then e.target else e.source) vis)
        (visited ++ [nodeId])

/-- `countConnectedComponents`. -/
def HierarchyAnalyzer.countConnectedComponents (nodes : List PromptNode)
    (edges : List PromptEdge) : Nat :=
  (nodes.foldl
    (fun (st : List String × Nat) node =>
      if st.1.contains node.id then st
      else
        (HierarchyAnalyzer.dfsComp edges (nodes.length + 2 * edges.length + 1)
          node.id st.1,
         st.2 + 1))
    ([], 0)).2

/-- `findOrphanedNodes` (metrics flavour: empty when ≤ 1 node). -/
def HierarchyAnalyzer.findOrphanedNodes (nodes : List PromptNode)
    (edges : List PromptEdge) : List PromptNode :=
  if nodes.length ≤ 1 then []
  else
    nodes.filter fun n =>
      !(edges.any fun e => e.source == n.id || e.target == n.id)

/-- JS `text.split(/\s+/)`: runs of whitespace are one separator, a
leading (resp. trailing) separator contributes one empty token, and the
empty string splits to `[""]`. -/
def jsWsSplit (s : String) : List String :=
  if s.isEmpty then [""]
  else
    let chunks := (s.data.splitOnP Char.isWhitespace).map fun l => String.mk l
    let core := chunks.filter fun t => !t.isEmpty
    let lead : List String :=
      match s.data.head? with
      | some c => if c.isWhitespace then [""] else []
      | none => []
    let trail : List String :=
      match s.data.getLast? with
      | some c => if c.isWhitespace then [""] else []
      | none => []
    lead ++ core ++ trail

/-- `calculateSimilarity`: Jaccard similarity of the lower-cased
whitespace-tokenized word sets.  The token lists are never empty, so the
union is non-empty and the division is safe. -/
def HierarchyAnalyzer.calculateSimilarity (text1 text2 : String) : Rat :=
  let words1 := (jsWsSplit text1.toLower).dedup
  let words2 := (jsWsSplit text2.toLower).dedup
  let inter := words1.filter fun w => words2.contains w
  let union := (words1 ++ words2).dedup
  (inter.length : Rat) / (union.length : Rat)

/-- The double loop of `calculateRedundancy`, counting unordered pairs
with similarity above the threshold. -/
def HierarchyAnalyzer.countSimilarPairs : List PromptNode → Nat
  | [] => 0
  | x :: t =>
    (t.filter fun y =>
      HierarchyAnalyzer.calculateSimilarity x.content y.content > 0.7).length +
    HierarchyAnalyzer.countSimilarPairs t

/-- `calculateRedundancy`. -/
def HierarchyAnalyzer.calculateRedundancy (nodes : List PromptNode) : Rat :=
  if nodes.length ≤ 1 then 0
  else
    (HierarchyAnalyzer.countSimilarPairs nodes : Rat) /
      ((nodes.length : Rat) * ((nodes.length : Rat) - 1) / 2)

/-- `calculateMetrics`. -/
def HierarchyAnalyzer.calculateMetrics (nodes : List PromptNode)
    (edges : List PromptEdge) : HierarchyMetrics :=
  let depths : List Int := nodes.map fun n => n.depth.getD 0
  let fanouts : List Nat :=
    ((nodes.filter fun n => !(n.childIds.getD []).isEmpty).map
      fun n => (n.childIds.getD []).length)
  let specificities : List Rat :=
    (nodes.map fun n => jsOrQ n.specificity 0.5).filter fun s => s > 0
  let flexibilities : List Rat :=
    (nodes.map fun n => jsOrQ n.flexibility 0.5).filter fun f => f > 0
  let totalTokens := TokenEstimator.estimateTotal nodes
  { maxDepth := depths.foldl max 0
    avgDepth :=
      if depths.length > 0 then ((depths.sum : Int) : Rat) / (depths.length : Rat)
      else 0
    totalNodes := nodes.length
    leafNodes :=
      (nodes.filter fun n => (n.childIds.getD []).isEmpty).length
    rootNodes := (nodes.filter fun n => !(jsTruthyStr n.parentId)).length
    balanceFactor := HierarchyAnalyzer.calculateBalanceFactor nodes
    fanout :=
      { min := if fanouts.length > 0 then listMinQ (fanouts.map Nat.cast) else 0
        max := if fanouts.length > 0 then listMaxQ (fanouts.map Nat.cast) else 0
        avg :=
          if fanouts.length > 0 then ((fanouts.sum : Nat) : Rat) / (fanouts.length : Rat)
          else 0 }
    altitudeDistribution := fun a =>
      (nodes.filter fun n => n.altitude.getD PromptAltitude.TACTICAL = a).length
    specificityRange :=
      { min := if specificities.length > 0 then listMinQ specificities else 0
        max := if specificities.length > 0 then listMaxQ specificities else 1
        avg :=
          if specificities.length > 0 then specificities.sum / (specificities.length : Rat)
          else 0.5 }
    flexibilityRange :=
      { min := if flexibilities.length > 0 then listMinQ flexibilities else 0
        max := if flexibilities.length > 0 then listMaxQ flexibilities else 1
        avg :=
          if flexibilities.length > 0 then flexibilities.sum / (flexibilities.length : Rat)
          else 0.5 }
    totalTokens := totalTokens
    avgTokensPerNode :=
      if nodes.length > 0 then (totalTokens : Rat) / (nodes.length : Rat) else 0
    budgetUtilization := HierarchyAnalyzer.calculateBudgetUtilization nodes
    scopeDistribution := fun s =>
      (nodes.filter fun n => n.scope.getD PromptScope.TASK = s).length
    cyclomaticComplexity :=
      (edges.length : Int) - (nodes.length : Int) +
        2 * (HierarchyAnalyzer.countConnectedComponents nodes edges : Int)
    couplingScore :=
      if nodes.length ≤ 1 then 0
      else
        (edges.length : Rat) /
          ((nodes.length : Rat) * ((nodes.length : Rat) - 1) / 2)
    cohesionScore :=
      jsAvg2
        (jsOneSub (jsDiv ((nodes.map PromptNode.category).dedup.length : Rat)
          (nodes.length : Rat)))
        (jsOneSub (jsDiv
          ((nodes.map fun n => n.scope.getD PromptScope.TASK).dedup.length : Rat)
          (nodes.length : Rat)))
    orphanedNodes := (HierarchyAnalyzer.findOrphanedNodes nodes edges).length
    redundancyScore := HierarchyAnalyzer.calculateRedundancy nodes
    conflictDensity := 0
    templateUsage :=
      jsDiv ((nodes.filter PromptNode.isTemplate).length : Rat) (nodes.length : Rat) }

/-- A node with every optional field absent, used to build the concrete
inputs of the witnesses and counterexamples below. -/
def baseNode (i : String) : PromptNode :=
  { id := i
    title := i
    content := ""
    category := ""
    parentId := none
    childIds := none
    depth := none
    altitude := none
    scope := none
    contextPriority := none
    specificity := none
    flexibility := none
    tokenBudget := none
    estimatedTokens := none
    compressionHint := none
    isTemplate := false }

/-- Spec-side description of the merge rule: scanning left to right,
keep the current record and replace it only on a strictly greater
`allocated` value — i.e. the result is the earliest record attaining the
maximum `allocated`. -/
def maxStepF (acc : Option ContextAllocation) (a : ContextAllocation) :
    Option ContextAllocation :=
  match acc with
  | none => some a
  | some b => if a.allocated > b.allocated then some a else some b

def leftmostMaxAlloc (l : List ContextAllocation) : Option ContextAllocation :=
  l.foldl maxStepF none

/-- The invariant property of `ContextWindow` stated by the spec:
`used` is the sum of the allocations' `used` values and
`remaining = totalBudget - used`. -/
def windowInvariant (w : ContextWindow) : Prop :=
  w.used = (w.allocations.map ContextAllocation.used).sum ∧
  w.remaining = w.totalBudget - w.used

/-- Sum of the `allocated` values of an allocation list. -/
def allocatedSum (l : List ContextAllocation) : Rat :=
  (l.map ContextAllocation.allocated).sum


/-! ## Association-list lemmas for the merge map -/

/-- Keys of the association list modelling the merge `Map`. -/
def alKeys (m : List (String × ContextAllocation)) : List String :=
  m.map Prod.fst

/-- Every stored value records its own key as its `nodeId`. -/
def alConsistent (m : List (String × ContextAllocation)) : Prop :=
  ∀ e ∈ m, (Prod.snd e).nodeId = e.1

theorem alKeys_cons (e : String × ContextAllocation)
    (t : List (String × ContextAllocation)) : alKeys (e :: t) = e.1 :: alKeys t :=
  rfl

theorem alLookup_eq_none_iff (m : List (String × ContextAllocation)) (k : String) :
    alLookup m k = none ↔ k ∉ alKeys m := by
  induction m with
  | nil => simp [alLookup, alKeys]
  | cons e t ih =>
    rw [alKeys_cons]
    show (if e.1 = k then some e.2 else alLookup t k) = none ↔ _
    by_cases he : e.1 = k
    · rw [if_pos he]
      simp [he]
    · rw [if_neg he, ih]
      constructor
      · intro hnt hor
        rcases List.mem_cons.mp hor with hor | hor
        · exact he hor.symm
        · exact hnt hor
      · intro hall hin
        exact hall (List.mem_cons_of_mem _ hin)

theorem alSet_of_not_mem (m : List (String × ContextAllocation)) (k : String)
    (v : ContextAllocation) (h : k ∉ alKeys m) : alSet m k v = m ++ [(k, v)] := by
  induction m with
  | nil => rfl
  | cons e t ih =>
    rw [alKeys_cons] at h
    have h1 : ¬ e.1 = k := fun he => h (he ▸ List.mem_cons_self _ _)
    have h2 : k ∉ alKeys t := fun ht => h (List.mem_cons_of_mem _ ht)
    show (if e.1 = k then (k, v) :: t else e :: alSet t k v) = e :: t ++ [(k, v)]
    rw [if_neg h1, ih h2]
    rfl

theorem alLookup_alSet_self (m : List (String × ContextAllocation)) (k : String)
    (v : ContextAllocation) : alLookup (alSet m k v) k = some v := by
  induction m with
  | nil => simp [alSet, alLookup]
  | cons e t ih =>
    show alLookup (if e.1 = k then (k, v) :: t else e :: alSet t k v) k = some v
    by_cases he : e.1 = k
    · rw [if_pos he]
      simp [alLookup]
    · rw [if_neg he]
      show (if e.1 = k then some e.2 else alLookup (alSet t k v) k) = some v
      rw [if_neg he, ih]

theorem alLookup_alSet_other (m : List (String × ContextAllocation)) (k k' : String)
    (v : ContextAllocation) (h : k' ≠ k) :
    alLookup (alSet m k v) k' = alLookup m k' := by
  induction m with
  | nil =>
    show (if k = k' then some v else alLookup [] k') = alLookup [] k'
    rw [if_neg (Ne.symm h)]
  | cons e t ih =>
    show alLookup (if e.1 = k then (k, v) :: t else e :: alSet t k v) k' = _
    by_cases he : e.1 = k
    · rw [if_pos he]
      show (if k = k' then some v else alLookup t k') =
        (if e.1 = k' then some e.2 else alLookup t k')
      rw [if_neg (Ne.symm h), if_neg (fun hx : e.1 = k' => h ((he ▸ hx).symm))]
    · rw [if_neg he]
      show (if e.1 = k' then some e.2 else alLookup (alSet t k v) k') =
        (if e.1 = k' then some e.2 else alLookup t k')
      by_cases hk' : e.1 = k'
      · rw [if_pos hk', if_pos hk']
      · rw [if_neg hk', if_neg hk', ih]

theorem alKeys_alSet_mem (m : List (String × ContextAllocation)) (k : String)
    (v : ContextAllocation) (h : k ∈ alKeys m) : alKeys (alSet m k v) = alKeys m := by
  induction m with
  | nil => simp [alKeys] at h
  | cons e t ih =>
    show alKeys (if e.1 = k then (k, v) :: t else e :: alSet t k v) = alKeys (e :: t)
    by_cases he : e.1 = k
    · rw [if_pos he, alKeys_cons, alKeys_cons, he]
    · rw [alKeys_cons] at h
      have ht : k ∈ alKeys t := by
        rcases List.mem_cons.mp h with h1 | h1
        · exact absurd h1.symm he
        · exact h1
      rw [if_neg he, alKeys_cons, alKeys_cons, ih ht]

theorem alSet_consistent (m : List (String × ContextAllocation)) (k : String)
    (v : ContextAllocation) (hm : alConsistent m) (hv : v.nodeId = k) :
    alConsistent (alSet m k v) := by
  induction m with
  | nil =>
    intro e he
    simp only [alSet, List.mem_singleton] at he
    simp [he, hv]
  | cons e t ih =>
    have hmt : alConsistent t := fun y hy => hm y (List.mem_cons_of_mem _ hy)
    intro x hx
    by_cases he : e.1 = k
    · rw [show alSet (e :: t) k v = (k, v) :: t from by
        show (if e.1 = k then (k, v) :: t else e :: alSet t k v) = _
        rw [if_pos he]] at hx
      rcases List.mem_cons.mp hx with hx | hx
      · simp [hx, hv]
      · exact hm x (List.mem_cons_of_mem _ hx)
    · rw [show alSet (e :: t) k v = e :: alSet t k v from by
        show (if e.1 = k then (k, v) :: t else e :: alSet t k v) = _
        rw [if_neg he]] at hx
      rcases List.mem_cons.mp hx with hx | hx
      · exact hx ▸ hm e (List.mem_cons_self _ _)
      · exact ih hmt x hx

theorem mergeStep_consistent (m : List (String × ContextAllocation))
    (a : ContextAllocation) (h : alConsistent m) : alConsistent (mergeStep m a) := by
  unfold mergeStep
  cases hl : alLookup m a.nodeId with
  | none => exact alSet_consistent m a.nodeId a h rfl
  | some ex =>
    show alConsistent (if a.allocated > ex.allocated then alSet m a.nodeId a else m)
    by_cases hgt : a.allocated > ex.allocated
    · rw [if_pos hgt]
      exact alSet_consistent m a.nodeId a h rfl
    · rw [if_neg hgt]
      exact h

theorem mergeStep_keys_nodup (m : List (String × ContextAllocation))
    (a : ContextAllocation) (h : (alKeys m).Nodup) :
    (alKeys (mergeStep m a)).Nodup := by
  unfold mergeStep
  cases hl : alLookup m a.nodeId with
  | none =>
    have hk := (alLookup_eq_none_iff m a.nodeId).mp hl
    show (alKeys (alSet m a.nodeId a)).Nodup
    rw [alSet_of_not_mem m a.nodeId a hk,
      show alKeys (m ++ [(a.nodeId, a)]) = alKeys m ++ [a.nodeId] from by simp [alKeys],
      List.nodup_append]
    exact ⟨h, List.nodup_singleton _, by
      intro x hx hx'
      simp only [List.mem_singleton] at hx'
      exact hk (hx' ▸ hx)⟩
  | some ex =>
    have hkm : a.nodeId ∈ alKeys m := by
      by_contra hk
      rw [← alLookup_eq_none_iff] at hk
      rw [hk] at hl
      exact Option.noConfusion hl
    show (alKeys (if a.allocated > ex.allocated then alSet m a.nodeId a else m)).Nodup
    by_cases hgt : a.allocated > ex.allocated
    · rw [if_pos hgt, alKeys_alSet_mem m a.nodeId a hkm]
      exact h
    · rw [if_neg hgt]
      exact h

theorem alLookup_mergeStep (m : List (String × ContextAllocation))
    (a : ContextAllocation) (k : String) :
    alLookup (mergeStep m a) k =
      if a.nodeId = k then maxStepF (alLookup m k) a else alLookup m k := by
  unfold mergeStep
  cases hl : alLookup m a.nodeId with
  | none =>
    show alLookup (alSet m a.nodeId a) k = _
    by_cases hk : a.nodeId = k
    · subst hk
      rw [alLookup_alSet_self, if_pos rfl, hl]
      rfl
    · rw [alLookup_alSet_other m a.nodeId k a (fun hx => hk hx.symm), if_neg hk]
  | some ex =>
    show alLookup (if a.allocated > ex.allocated then alSet m a.nodeId a else m) k = _
    by_cases hk : a.nodeId = k
    · subst hk
      rw [if_pos rfl, hl]
      by_cases hgt : a.allocated > ex.allocated
      · rw [if_pos hgt, alLookup_alSet_self]
        show _ = (if a.allocated > ex.allocated then some a else some ex)
        rw [if_pos hgt]
      · rw [if_neg hgt, hl]
        show _ = (if a.allocated > ex.allocated then some a else some ex)
        rw [if_neg hgt]
    · rw [if_neg hk]
      by_cases hgt : a.allocated > ex.allocated
      · rw [if_pos hgt]
        exact alLookup_alSet_other m a.nodeId k a (fun hx => hk hx.symm)
      · rw [if_neg hgt]

theorem alLookup_foldl_mergeStep (l : List ContextAllocation) :
    ∀ (m : List (String × ContextAllocation)) (k : String),
      alLookup (l.foldl mergeStep m) k =
        (l.filter fun a => a.nodeId = k).foldl maxStepF (alLookup m k) := by
  induction l with
  | nil => intro m k; rfl
  | cons a t ih =>
    intro m k
    simp only [List.foldl_cons]
    rw [ih (mergeStep m a) k]
    by_cases hk : a.nodeId = k
    · rw [List.filter_cons_of_pos (by simpa using hk)]
      simp only [List.foldl_cons]
      rw [alLookup_mergeStep, if_pos hk]
    · rw [List.filter_cons_of_neg (by simpa using hk)]
      rw [alLookup_mergeStep, if_neg hk]

theorem foldl_mergeStep_keys_nodup (l : List ContextAllocation) :
    ∀ m, (alKeys m).Nodup → (alKeys (l.foldl mergeStep m)).Nodup := by
  induction l with
  | nil => intro m h; exact h
  | cons a t ih =>
    intro m h
    exact ih (mergeStep m a) (mergeStep_keys_nodup m a h)

theorem foldl_mergeStep_consistent (l : List ContextAllocation) :
    ∀ m, alConsistent m → alConsistent (l.foldl mergeStep m) := by
  induction l with
  | nil => intro m h; exact h
  | cons a t ih =>
    intro m h
    exact ih (mergeStep m a) (mergeStep_consistent m a h)

theorem mem_alLookup (m : List (String × ContextAllocation))
    (hnd : (alKeys m).Nodup) (e : String × ContextAllocation) (he : e ∈ m) :
    alLookup m e.1 = some e.2 := by
  induction m with
  | nil => simp at he
  | cons x t ih =>
    rw [alKeys_cons, List.nodup_cons] at hnd
    rcases List.mem_cons.mp he with he | he
    · show (if x.1 = e.1 then some x.2 else alLookup t e.1) = some e.2
      rw [he]
      simp
    · have hx : ¬ x.1 = e.1 := by
        intro hx
        exact hnd.1 (hx ▸ List.mem_map_of_mem Prod.fst he)
      show (if x.1 = e.1 then some x.2 else alLookup t e.1) = some e.2
      rw [if_neg hx]
      exact ih hnd.2 he

theorem alLookup_mem (m : List (String × ContextAllocation)) (k : String)
    (v : ContextAllocation) (h : alLookup m k = some v) : (k, v) ∈ m := by
  induction m with
  | nil => simp [alLookup] at h
  | cons e t ih =>
    by_cases he : e.1 = k
    · rw [show alLookup (e :: t) k = some e.2 from by
        show (if e.1 = k then some e.2 else alLookup t k) = _
        rw [if_pos he]] at h
      have : e = (k, v) := by
        cases e
        simp only [Option.some.injEq] at h
        simp_all
      exact this ▸ List.mem_cons_self _ _
    · rw [show alLookup (e :: t) k = alLookup t k from by
        show (if e.1 = k then some e.2 else alLookup t k) = _
        rw [if_neg he]] at h
      exact List.mem_cons_of_mem _ (ih h)

theorem maxFold_mem (l : List ContextAllocation) :
    ∀ (acc : Option ContextAllocation) (r : ContextAllocation),
      l.foldl maxStepF acc = some r → acc = some r ∨ r ∈ l := by
  induction l with
  | nil => intro acc r h; exact Or.inl h
  | cons a t ih =>
    intro acc r h
    simp only [List.foldl_cons] at h
    rcases ih (maxStepF acc a) r h with h1 | h1
    · cases acc with
      | none =>
        simp only [maxStepF, Option.some.injEq] at h1
        exact Or.inr (h1 ▸ List.mem_cons_self _ _)
      | some b =>
        simp only [maxStepF] at h1
        split at h1
        · simp only [Option.some.injEq] at h1
          exact Or.inr (h1 ▸ List.mem_cons_self _ _)
        · exact Or.inl h1
    · exact Or.inr (List.mem_cons_of_mem _ h1)

theorem maxFold_ge (l : List ContextAllocation) :
    ∀ (acc : Option ContextAllocation) (r : ContextAllocation),
      l.foldl maxStepF acc = some r →
      (∀ b, acc = some b → b.allocated ≤ r.allocated) ∧
      (∀ b ∈ l, b.allocated ≤ r.allocated) := by
  induction l with
  | nil =>
    intro acc r h
    refine ⟨fun b hb => ?_, fun b hb => absurd hb (List.not_mem_nil b)⟩
    rw [hb] at h
    cases h
    exact le_refl _
  | cons a t ih =>
    intro acc r h
    simp only [List.foldl_cons] at h
    have hstep := ih (maxStepF acc a) r h
    have hstepge : ∀ c, maxStepF acc a = some c → c.allocated ≤ r.allocated :=
      fun c hc => hstep.1 c hc
    have hale : a.allocated ≤ r.allocated := by
      cases acc with
      | none => exact hstepge a rfl
      | some b =>
        by_cases hgt : a.allocated > b.allocated
        · exact hstepge a (by simp [maxStepF, hgt])
        · exact le_trans (not_lt.mp hgt) (hstepge b (by simp [maxStepF, hgt]))
    refine ⟨fun b hb => ?_, fun b hb => ?_⟩
    · subst hb
      by_cases hgt : a.allocated > b.allocated
      · exact le_trans (le_of_lt hgt) hale
      · exact hstepge b (by simp [maxStepF, hgt])
    · rcases List.mem_cons.mp hb with hb | hb
      · exact hb ▸ hale
      · exact hstep.2 b hb

theorem maxFold_some_isSome (l : List ContextAllocation) :
    ∀ b : ContextAllocation, (l.foldl maxStepF (some b)).isSome := by
  induction l with
  | nil => intro b; rfl
  | cons a t ih =>
    intro b
    simp only [List.foldl_cons, maxStepF]
    split
    · exact ih a
    · exact ih b

theorem maxFold_ne_nil (l : List ContextAllocation) (h : l ≠ []) :
    (l.foldl maxStepF none).isSome := by
  cases l with
  | nil => exact absurd rfl h
  | cons a t =>
    simp only [List.foldl_cons, maxStepF]
    exact maxFold_some_isSome t a

theorem foldl_mergeStep_fresh (l : List ContextAllocation) :
    ∀ m, alConsistent m →
      (alKeys m ++ l.map ContextAllocation.nodeId).Nodup →
      l.foldl mergeStep m = m ++ l.map fun a => (a.nodeId, a) := by
  induction l with
  | nil => intro m _ _; simp
  | cons a t ih =>
    intro m hc hnd
    have hk : a.nodeId ∉ alKeys m := by
      rw [List.nodup_append] at hnd
      intro hx
      exact hnd.2.2 hx (by simp)
    have hnone : alLookup m a.nodeId = none := (alLookup_eq_none_iff m a.nodeId).mpr hk
    have hstep : mergeStep m a = m ++ [(a.nodeId, a)] := by
      unfold mergeStep
      rw [hnone]
      exact alSet_of_not_mem m a.nodeId a hk
    simp only [List.foldl_cons]
    rw [hstep,
      ih (m ++ [(a.nodeId, a)])
        (by
          intro e he
          rcases List.mem_append.mp he with he | he
          · exact hc e he
          · simp only [List.mem_singleton] at he
            simp [he])
        (by simpa [alKeys, List.append_assoc] using hnd)]
    simp

theorem mergeAllocations_nodeIds (sets : List (List ContextAllocation)) :
    (ContextManager.mergeAllocations sets).map ContextAllocation.nodeId =
      alKeys ((sets.flatMap id).foldl mergeStep []) := by
  unfold ContextManager.mergeAllocations
  rw [List.map_map]
  apply List.map_congr_left
  intro e he
  exact foldl_mergeStep_consistent (sets.flatMap id) []
    (fun x hx => absurd hx (List.not_mem_nil x)) e he

theorem find?_map_snd (m : List (String × ContextAllocation)) (k : String)
    (hc : alConsistent m) :
    (m.map Prod.snd).find? (fun a => a.nodeId = k) = alLookup m k := by
  induction m with
  | nil => rfl
  | cons e t ih =>
    have he : e.2.nodeId = e.1 := hc e (List.mem_cons_self _ _)
    have ht : alConsistent t := fun y hy => hc y (List.mem_cons_of_mem _ hy)
    simp only [List.map_cons]
    by_cases hk : e.1 = k
    · rw [List.find?_cons_of_pos _ (by simp [he, hk])]
      rw [show alLookup (e :: t) k = some e.2 from by
        show (if e.1 = k then some e.2 else alLookup t k) = _
        rw [if_pos hk]]
    · rw [List.find?_cons_of_neg _ (by simp [he, hk])]
      rw [show alLookup (e :: t) k = alLookup t k from by
        show (if e.1 = k then some e.2 else alLookup t k) = _
        rw [if_neg hk]]
      exact ih ht

/-- C5: the allocation merge keeps, per node id, a single record carrying
the maximal `allocated` value among the input passes; the output has at
most one entry per node id, every input node id is represented, and the
merge is idempotent (re-merging the merged list changes nothing). -/
theorem claim5_merge_max_idempotent (sets : List (List ContextAllocation)) :
    ((ContextManager.mergeAllocations sets).map ContextAllocation.nodeId).Nodup ∧
    (∀ a ∈ ContextManager.mergeAllocations sets,
        a ∈ sets.flatMap id ∧
        ∀ b ∈ sets.flatMap id, b.nodeId = a.nodeId → b.allocated ≤ a.allocated) ∧
    (∀ b ∈ sets.flatMap id,
        ∃ a ∈ ContextManager.mergeAllocations sets, a.nodeId = b.nodeId) ∧
    ContextManager.mergeAllocations [ContextManager.mergeAllocations sets] =
      ContextManager.mergeAllocations sets := by
  have hcons : alConsistent ((sets.flatMap id).foldl mergeStep []) :=
    foldl_mergeStep_consistent _ [] (fun x hx => absurd hx (List.not_mem_nil x))
  have hnd : (alKeys ((sets.flatMap id).foldl mergeStep [])).Nodup :=
    foldl_mergeStep_keys_nodup _ [] (by simp [alKeys])
  have hids := mergeAllocations_nodeIds sets
  have hmerged : ContextManager.mergeAllocations sets =
      ((sets.flatMap id).foldl mergeStep []).map Prod.snd := rfl
  refine ⟨by rw [hids]; exact hnd, ?_, ?_, ?_⟩
  · intro a ha
    rw [hmerged] at ha
    obtain ⟨e, he, hea⟩ := List.mem_map.mp ha
    have hkey : alLookup ((sets.flatMap id).foldl mergeStep []) e.1 = some e.2 :=
      mem_alLookup _ hnd e he
    have hchar := alLookup_foldl_mergeStep (sets.flatMap id) [] e.1
    rw [show alLookup ([] : List (String × ContextAllocation)) e.1 = none from rfl]
      at hchar
    rw [hkey] at hchar
    have hanode : a.nodeId = e.1 := by
      rw [← hea]
      exact hcons e he
    have hsome :
        (((sets.flatMap id).filter fun b => b.nodeId = e.1).foldl maxStepF none) =
          some a := by
      rw [← hchar, hea]
    constructor
    · rcases maxFold_mem _ none a hsome with h1 | h1
      · exact Option.noConfusion h1
      · exact (List.mem_filter.mp h1).1
    · intro b hb hbid
      refine (maxFold_ge _ none a hsome).2 b (List.mem_filter.mpr ⟨hb, ?_⟩)
      simp [hbid, hanode]
  · intro b hb
    have hbf : b ∈ (sets.flatMap id).filter fun a => a.nodeId = b.nodeId :=
      List.mem_filter.mpr ⟨hb, by simp⟩
    have hne : ((sets.flatMap id).filter fun a => a.nodeId = b.nodeId) ≠ [] :=
      List.ne_nil_of_mem hbf
    have hsome := maxFold_ne_nil _ hne
    obtain ⟨a, ha⟩ := Option.isSome_iff_exists.mp hsome
    have hchar := alLookup_foldl_mergeStep (sets.flatMap id) [] b.nodeId
    have hlk : alLookup ((sets.flatMap id).foldl mergeStep []) b.nodeId = some a := by
      rw [hchar]
      exact ha
    have hmem := alLookup_mem _ _ _ hlk
    refine ⟨a, ?_, ?_⟩
    · rw [hmerged]
      exact List.mem_map.mpr ⟨(b.nodeId, a), hmem, rfl⟩
    · exact hcons (b.nodeId, a) hmem
  · have hidnodup :
        ((ContextManager.mergeAllocations sets).map ContextAllocation.nodeId).Nodup := by
      rw [hids]
      exact hnd
    have hfresh :=
      foldl_mergeStep_fresh (ContextManager.mergeAllocations sets) []
        (fun x hx => absurd hx (List.not_mem_nil x))
        (by simpa [alKeys] using hidnodup)
    show ((([ContextManager.mergeAllocations sets] :
        List (List ContextAllocation)).flatMap id).foldl mergeStep []).map Prod.snd =
      ContextManager.mergeAllocations sets
    rw [show ([ContextManager.mergeAllocations sets] :
        List (List ContextAllocation)).flatMap id =
        ContextManager.mergeAllocations sets from by simp]
    rw [hfresh]
    rw [List.nil_append, List.map_map]
    rw [show (Prod.snd ∘ fun a : ContextAllocation => (a.nodeId, a)) = id from rfl]
    exact List.map_id _

/-- C5 witness: on a concrete pair of singleton passes sharing one node
id, the merged output is duplicate-free and the merge hypothesis
instances are satisfied. -/
theorem claim5_merge_witness :
    ((ContextManager.mergeAllocations
        [[ContextAllocation.mk "n" 5 4 50 true 1],
         [ContextAllocation.mk "n" 7 6 60 false 1]]).map
      ContextAllocation.nodeId).Nodup ∧
    (ContextAllocation.mk "n" 5 4 50 true 1).allocated ≤
      (ContextAllocation.mk "n" 7 6 60 false 1).allocated := by
  have h := claim5_merge_max_idempotent
    [[ContextAllocation.mk "n" 5 4 50 true 1],
     [ContextAllocation.mk "n" 7 6 60 false 1]]
  refine ⟨h.1, ?_⟩
  have hb : (ContextAllocation.mk "n" 7 6 60 false 1) ∈
      ContextManager.mergeAllocations
        [[ContextAllocation.mk "n" 5 4 50 true 1],
         [ContextAllocation.mk "n" 7 6 60 false 1]] := by decide
  have hmem : (ContextAllocation.mk "n" 5 4 50 true 1) ∈
      ([[ContextAllocation.mk "n" 5 4 50 true 1],
        [ContextAllocation.mk "n" 7 6 60 false 1]] :
        List (List ContextAllocation)).flatMap id := by decide
  exact (h.2.1 _ hb).2 _ hmem (by decide)

/-- C10: the merged record for a node id is the leftmost record attaining
the maximal `allocated` value across the three passes in their fixed
order (replacement happens only on strictly greater `allocated`), so a
tie keeps the earliest pass; concretely, a single GLOBAL/META node with
budget 1000 ties the scope pass (300) with the priority pass (300) and
keeps the scope pass record: priority 100, `compressible = false`. -/
theorem claim10_merge_tie_keeps_earliest :
    (∀ (s1 s2 s3 : List ContextAllocation) (k : String),
        (ContextManager.mergeAllocations [s1, s2, s3]).find?
            (fun a => a.nodeId = k) =
          leftmostMaxAlloc ((s1 ++ s2 ++ s3).filter fun a => a.nodeId = k)) ∧
    (ContextManager.allocateBudget (ContextManager.initWindow 1000)
        [{ baseNode "g" with
             scope := some PromptScope.GLOBAL,
             altitude := some PromptAltitude.META }]).allocations =
      [{ nodeId := "g", allocated := 300, used := 240, priority := 100,
         compressible := false, compressionFactor := 1 }] := by
  constructor
  · intro s1 s2 s3 k
    have hcons : alConsistent ((([s1, s2, s3] :
        List (List ContextAllocation)).flatMap id).foldl mergeStep []) :=
      foldl_mergeStep_consistent _ [] (fun x hx => absurd hx (List.not_mem_nil x))
    rw [show ContextManager.mergeAllocations [s1, s2, s3] =
        ((([s1, s2, s3] : List (List ContextAllocation)).flatMap id).foldl
          mergeStep []).map Prod.snd from rfl]
    rw [find?_map_snd _ k hcons]
    rw [alLookup_foldl_mergeStep]
    rw [show (([s1, s2, s3] : List (List ContextAllocation)).flatMap id) =
        s1 ++ (s2 ++ s3) from by simp]
    show ((s1 ++ (s2 ++ s3)).filter fun a => a.nodeId = k).foldl maxStepF none = _
    rw [show leftmostMaxAlloc ((s1 ++ s2 ++ s3).filter fun a => a.nodeId = k) =
        ((s1 ++ s2 ++ s3).filter fun a => a.nodeId = k).foldl maxStepF none from rfl,
      List.append_assoc]
  · decide

/-! ## Claims C1 and C3 -/

theorem walkParent_conflicts_nil (nodes : List PromptNode) :
    ∀ (fuel : Nat) (cur : Option PromptNode) (path visited : List String),
      (∀ i ∈ path, i ∈ visited) →
      (ConflictDetector.walkParent nodes fuel cur path visited).2 = [] := by
  intro fuel
  induction fuel with
  | zero =>
    intro cur path visited _
    cases cur <;> rfl
  | succ n ih =>
    intro cur path visited hsub
    cases cur with
    | none => rfl
    | some c =>
      simp only [ConflictDetector.walkParent]
      by_cases hv : c.id ∈ visited
      · rw [if_pos hv]
      · rw [if_neg hv]
        have hp : c.id ∉ path := fun hc => hv (hsub _ hc)
        rw [if_neg hp]
        apply ih
        intro i hi
        rcases List.mem_append.mp hi with hi | hi
        · exact List.mem_append.mpr (Or.inl (hsub i hi))
        · exact List.mem_append.mpr (Or.inr hi)

theorem detectCircularParentReferences_nil (nodes : List PromptNode) :
    ConflictDetector.detectCircularParentReferences nodes = [] := by
  unfold ConflictDetector.detectCircularParentReferences
  suffices h : ∀ (l : List PromptNode) (st : List String × List Conflict),
      st.2 = [] → (l.foldl (ConflictDetector.cycleStep nodes) st).2 = [] by
    exact h nodes ([], []) rfl
  intro l
  induction l with
  | nil => intro st h; exact h
  | cons a t ih =>
    intro st h
    simp only [List.foldl_cons]
    apply ih
    unfold ConflictDetector.cycleStep
    by_cases hm : a.id ∈ st.1
    · rw [if_pos hm]
      exact h
    · rw [if_neg hm]
      show st.2 ++
        (ConflictDetector.walkParent nodes (nodes.length + 1) (some a) [] st.1).2 = []
      rw [walkParent_conflicts_nil nodes (nodes.length + 1) (some a) [] st.1
        (fun i hi => absurd hi (List.not_mem_nil i)), h]
      rfl

/-- C1: the claim fails against the code — `detectCircularParentReferences`
is dead code.  Every id pushed onto the current walk path is simultaneously
added to the globally visited set, and the walk loop exits on visited ids,
so the cycle-reporting branch is unreachable: the detector returns `[]` on
EVERY input, and on a concrete 2-cycle (a → b → a) the whole
`detectHierarchyConflicts` returns no conflict at all, where the claim
demands exactly one circular-reference conflict naming both nodes. -/
theorem claim1_cycle_detector_emits_nothing :
    (∀ nodes : List PromptNode,
        ConflictDetector.detectCircularParentReferences nodes = []) ∧
    ConflictDetector.detectHierarchyConflicts
      [{ baseNode "a" with parentId := some "b" },
       { baseNode "b" with parentId := some "a" }] = [] :=
  ⟨detectCircularParentReferences_nil, by decide⟩

/-- C3: `calculateMetrics` on empty inputs raises nothing and yields the
documented zero/default value in every field EXCEPT `templateUsage` and
`cohesionScore`, which are computed by unguarded divisions `0 / 0` and are
therefore JS `NaN` (modelled by `none`), not `0`: the guard the claim
describes does not exist in the code. -/
theorem claim3_empty_metrics_nan :
    (HierarchyAnalyzer.calculateMetrics [] []).templateUsage = none ∧
    (HierarchyAnalyzer.calculateMetrics [] []).cohesionScore = none ∧
    (HierarchyAnalyzer.calculateMetrics [] []).maxDepth = 0 ∧
    (HierarchyAnalyzer.calculateMetrics [] []).avgDepth = 0 ∧
    (HierarchyAnalyzer.calculateMetrics [] []).totalNodes = 0 ∧
    (HierarchyAnalyzer.calculateMetrics [] []).leafNodes = 0 ∧
    (HierarchyAnalyzer.calculateMetrics [] []).rootNodes = 0 ∧
    (HierarchyAnalyzer.calculateMetrics [] []).balanceFactor = 1 ∧
    (HierarchyAnalyzer.calculateMetrics [] []).fanout = RangeStat.mk 0 0 0 ∧
    (∀ a, (HierarchyAnalyzer.calculateMetrics [] []).altitudeDistribution a = 0) ∧
    (HierarchyAnalyzer.calculateMetrics [] []).specificityRange =
      RangeStat.mk 0 1 0.5 ∧
    (HierarchyAnalyzer.calculateMetrics [] []).flexibilityRange =
      RangeStat.mk 0 1 0.5 ∧
    (HierarchyAnalyzer.calculateMetrics [] []).totalTokens = 0 ∧
    (HierarchyAnalyzer.calculateMetrics [] []).avgTokensPerNode = 0 ∧
    (HierarchyAnalyzer.calculateMetrics [] []).budgetUtilization = 0 ∧
    (∀ s, (HierarchyAnalyzer.calculateMetrics [] []).scopeDistribution s = 0) ∧
    (HierarchyAnalyzer.calculateMetrics [] []).cyclomaticComplexity = 0 ∧
    (HierarchyAnalyzer.calculateMetrics [] []).couplingScore = 0 ∧
    (HierarchyAnalyzer.calculateMetrics [] []).orphanedNodes = 0 ∧
    (HierarchyAnalyzer.calculateMetrics [] []).redundancyScore = 0 ∧
    (HierarchyAnalyzer.calculateMetrics [] []).conflictDensity = 0 :=
  ⟨by decide, by decide, by decide, by decide, by decide, by decide, by decide,
   by decide, by decide, fun a => by cases a <;> rfl, by decide, by decide,
   by decide, by decide, by decide, fun s => by cases s <;> rfl, by decide,
   by decide, by decide, by decide, by decide⟩

/-- C7 counterexample: a single node with no `specificity` field has, per
the claim, no qualifying specificity value, so the claim forces the
default range `(0, 1, 0.5)`; the code instead substitutes the 0.5 default
(which passes the `> 0` filter) and yields `(0.5, 0.5, 0.5)`. -/
theorem claim7_absent_specificity_cex :
    (baseNode "n0").specificity = none ∧
    (HierarchyAnalyzer.calculateMetrics [baseNode "n0"] []).specificityRange =
      RangeStat.mk 0.5 0.5 0.5 ∧
    RangeStat.mk (0.5 : Rat) 0.5 0.5 ≠ RangeStat.mk 0 1 0.5 :=
  ⟨rfl, by decide, by decide⟩

/-! ## Claim C2 (compaction respects protection) -/

theorem mem_insertByPriority (a b : ContextAllocation) :
    ∀ l, b ∈ insertByPriority a l ↔ b = a ∨ b ∈ l := by
  intro l
  induction l with
  | nil => simp [insertByPriority]
  | cons c t ih =>
    show b ∈ (if a.priority < c.priority then a :: c :: t
      else c :: insertByPriority a t) ↔ _
    by_cases h : a.priority < c.priority
    · rw [if_pos h]
      simp [or_assoc]
    · rw [if_neg h]
      simp only [List.mem_cons, ih]
      tauto

theorem mem_sortByPriority (l : List ContextAllocation) (b : ContextAllocation) :
    b ∈ sortByPriority l ↔ b ∈ l := by
  suffices h : ∀ (l : List ContextAllocation) (acc : List ContextAllocation),
      b ∈ l.foldl (fun acc a => insertByPriority a acc) acc ↔ b ∈ acc ∨ b ∈ l by
    rw [sortByPriority, h l []]
    simp
  intro l
  induction l with
  | nil => intro acc; simp
  | cons a t ih =>
    intro acc
    simp only [List.foldl_cons]
    rw [ih (insertByPriority a acc), mem_insertByPriority]
    simp only [List.mem_cons]
    tauto

theorem compactLoop_mem (target : Rat) :
    ∀ (l : List ContextAllocation) (saved : Rat) (acc : List CompactedNode)
      (cn : CompactedNode),
      cn ∈ (compactLoop target l saved acc).1 →
      cn ∈ acc ∨ ∃ a ∈ l, cn = ContextManager.compactNode a := by
  intro l
  induction l with
  | nil =>
    intro saved acc cn h
    exact Or.inl h
  | cons a t ih =>
    intro saved acc cn h
    simp only [compactLoop] at h
    split at h
    · exact Or.inl h
    · rcases ih _ _ cn h with h1 | h1
      · rcases List.mem_append.mp h1 with h2 | h2
        · exact Or.inl h2
        · simp only [List.mem_singleton] at h2
          exact Or.inr ⟨a, List.mem_cons_self _ _, h2⟩
      · obtain ⟨b, hb, hcn⟩ := h1
        exact Or.inr ⟨b, List.mem_cons_of_mem _ hb, hcn⟩

/-- C2 (amended): `compact` never compacts a node id that is in
`preserveNodeIds`, and never compacts an allocation record whose id is
carried only by non-`compressible` records: its id does not appear in the
compacted list and its record survives into the new allocations
unchanged.  (A `compressionHint = preserve` node is protected only via the
`compressible` flag of its merged allocation; the altitude pass ignores
the hint, so the hint alone is NOT sufficient — see the counterexample.) -/
theorem claim2_compact_protected_amended (w : ContextWindow) (t : Rat) (x : String)
    (hprot : x ∈ w.preserveNodeIds ∨
      ∀ a ∈ w.allocations, a.nodeId = x → a.compressible = false) :
    x ∉ ((ContextManager.compact w t).1.nodesCompacted.map CompactedNode.nodeId) ∧
    ∀ a ∈ w.allocations, a.nodeId = x →
      a ∈ (ContextManager.compact w t).2.allocations := by
  have hcand : ∀ b ∈ sortByPriority (w.allocations.filter fun a =>
      a.compressible && !(w.preserveNodeIds.contains a.nodeId)), b.nodeId ≠ x := by
    intro b hb hbx
    rw [mem_sortByPriority] at hb
    have hmem := List.mem_filter.mp hb
    have hflt := hmem.2
    simp only [Bool.and_eq_true, Bool.not_eq_true'] at hflt
    rcases hprot with hp | hp
    · have : w.preserveNodeIds.contains b.nodeId = true := by
        rw [hbx]
        exact List.elem_eq_true_of_mem hp
      rw [this] at hflt
      exact Bool.noConfusion hflt.2
    · have := hp b hmem.1 hbx
      rw [this] at hflt
      exact Bool.noConfusion hflt.1
  have hids : ∀ cn ∈ (compactLoop t (sortByPriority (w.allocations.filter fun a =>
      a.compressible && !(w.preserveNodeIds.contains a.nodeId))) 0 []).1,
      cn.nodeId ≠ x := by
    intro cn hcn
    rcases compactLoop_mem t _ 0 [] cn hcn with h | h
    · exact absurd h (List.not_mem_nil cn)
    · obtain ⟨a, ha, hcna⟩ := h
      rw [hcna]
      exact hcand a ha
  constructor
  · intro hx
    obtain ⟨cn, hcn, hcnx⟩ := List.mem_map.mp hx
    exact hids cn hcn hcnx
  · intro a ha hax
    show a ∈ w.allocations.map fun alloc =>
      match (compactLoop t (sortByPriority (w.allocations.filter fun a =>
          a.compressible && !(w.preserveNodeIds.contains a.nodeId))) 0 []).1.find?
        (fun c => c.nodeId = alloc.nodeId) with
      | some ci =>
        { alloc with
            used := ci.compressedTokens
            compressionFactor := ci.originalTokens / ci.compressedTokens }
      | none => alloc
    have hfind : (compactLoop t (sortByPriority (w.allocations.filter fun a =>
        a.compressible && !(w.preserveNodeIds.contains a.nodeId))) 0 []).1.find?
        (fun c => c.nodeId = a.nodeId) = none := by
      rw [List.find?_eq_none]
      intro cn hcn
      simp only [decide_eq_true_eq]
      intro hcnx
      exact hids cn hcn (hcnx.trans hax)
    refine List.mem_map.mpr ⟨a, ha, ?_⟩
    rw [hfind]

/-- The preserve-hinted IMPLEMENTATION node of the C2 counterexample. -/
def c2nodeX : PromptNode :=
  { baseNode "x" with
      altitude := some PromptAltitude.IMPLEMENTATION
      compressionHint := some CompressionHint.preserve }

/-- A high-priority TACTICAL filler node of the C2 counterexample. -/
def c2nodeY (i : String) : PromptNode :=
  { baseNode i with
      altitude := some PromptAltitude.TACTICAL
      contextPriority := some 100 }

/-- The window obtained by allocating a 1000-token budget over the C2
counterexample nodes. -/
def c2window : ContextWindow :=
  ContextManager.allocateBudget (ContextManager.initWindow 1000)
    [c2nodeX, c2nodeY "y1", c2nodeY "y2", c2nodeY "y3", c2nodeY "y4"]

/-- C2 counterexample: node `x` carries `compressionHint = preserve` and is
in no preserve list, yet `compact` selects and compacts it (its `used`
drops from 32 to 16), because its maximal allocation came from the
altitude pass, which sets `compressible` from the altitude alone
(IMPLEMENTATION ⇒ compressible), ignoring the hint. -/
theorem claim2_preserve_hint_compacted_cex :
    c2nodeX.compressionHint = some CompressionHint.preserve ∧
    c2window.preserveNodeIds = [] ∧
    "x" ∈ ((ContextManager.compact c2window 1).1.nodesCompacted.map
      CompactedNode.nodeId) ∧
    (c2window.allocations.filter fun a => a.nodeId = "x").map
      ContextAllocation.used = [32] ∧
    ((ContextManager.compact c2window 1).2.allocations.filter
      fun a => a.nodeId = "x").map ContextAllocation.used = [16] :=
  ⟨rfl, by decide, by decide, by decide, by decide⟩

/-- C2 witness: a concrete window whose only allocation is protected by
`preserveNodeIds`; `compact` does not touch it. -/
theorem claim2_compact_protected_witness :
    "k" ∉ ((ContextManager.compact
        { ContextManager.initWindow 100 with
            allocations := [ContextAllocation.mk "k" 10 8 5 true 1]
            preserveNodeIds := ["k"]
            used := 8
            remaining := 92 } 4).1.nodesCompacted.map CompactedNode.nodeId) ∧
    ContextAllocation.mk "k" 10 8 5 true 1 ∈ (ContextManager.compact
        { ContextManager.initWindow 100 with
            allocations := [ContextAllocation.mk "k" 10 8 5 true 1]
            preserveNodeIds := ["k"]
            used := 8
            remaining := 92 } 4).2.allocations := by
  have h := claim2_compact_protected_amended
    { ContextManager.initWindow 100 with
        allocations := [ContextAllocation.mk "k" 10 8 5 true 1]
        preserveNodeIds := ["k"]
        used := 8
        remaining := 92 } 4 "k" (Or.inl (by decide))
  exact ⟨h.1, h.2 _ (by decide) rfl⟩

/-! ## Claim C8 (window invariant) -/

theorem windowInvariant_updateUsage (w : ContextWindow) :
    windowInvariant (ContextManager.updateUsage w) :=
  ⟨rfl, rfl⟩

/-- C8: `used = sum(allocation.used)` and `remaining = totalBudget - used`
hold after construction, are (re-)established by `allocateBudget` and
`compact` via `updateUsage`, and are preserved by `setPreserveNodes`. -/
theorem claim8_window_invariant (T : Rat) (nodes : List PromptNode)
    (w : ContextWindow) (t : Rat) (ids : List String) (hw : windowInvariant w) :
    windowInvariant (ContextManager.initWindow T) ∧
    windowInvariant (ContextManager.allocateBudget w nodes) ∧
    windowInvariant ((ContextManager.compact w t).2) ∧
    windowInvariant (ContextManager.setPreserveNodes w ids) := by
  refine ⟨⟨rfl, by show T = T - 0; ring⟩, ?_, ?_, ⟨hw.1, hw.2⟩⟩
  · exact windowInvariant_updateUsage _
  · exact windowInvariant_updateUsage _

/-- C8 witness: concrete instantiation of all four parts at a freshly
constructed window. -/
theorem claim8_window_invariant_witness :
    windowInvariant
      (ContextManager.setPreserveNodes (ContextManager.initWindow 5) ["a"]) ∧
    windowInvariant ((ContextManager.compact (ContextManager.initWindow 5) 1).2) := by
  have h := claim8_window_invariant 5 [] (ContextManager.initWindow 5) 1 ["a"]
    ⟨by decide, by decide⟩
  exact ⟨h.2.2.2, h.2.2.1⟩

/-! ## Claim C6 (per-pass reserve conservation) -/

theorem jsFloor_le (q : Rat) : jsFloor q ≤ q := by
  unfold jsFloor
  rw [show q.floor = ⌊q⌋ from (Rat.floor_def' q).trans Rat.floor_def.symm]
  exact Int.floor_le q

theorem allocatedSum_append (l1 l2 : List ContextAllocation) :
    allocatedSum (l1 ++ l2) = allocatedSum l1 + allocatedSum l2 := by
  simp [allocatedSum]

theorem allocatedSum_map_const {α : Type} (l : List α) (f : α → ContextAllocation)
    (c : Rat) (h : ∀ x, (f x).allocated = c) :
    allocatedSum (l.map f) = l.length * c := by
  induction l with
  | nil => simp [allocatedSum]
  | cons a t ih =>
    simp only [allocatedSum, List.map_cons, List.map_map, List.sum_cons] at ih ⊢
    rw [h a, ih, List.length_cons]
    push_cast
    ring

theorem allocateEqually_sum_le (nodes : List PromptNode) (b pr : Rat) (cp : Bool)
    (hb : 0 ≤ b) :
    allocatedSum (ContextManager.allocateEqually nodes b pr cp) ≤ b := by
  unfold ContextManager.allocateEqually
  by_cases h0 : nodes.length = 0
  · rw [if_pos h0]
    simpa [allocatedSum] using hb
  · rw [if_neg h0]
    have hn : (0 : Rat) < (nodes.length : Rat) := by
      exact_mod_cast Nat.pos_of_ne_zero h0
    calc allocatedSum (nodes.map fun node =>
          { nodeId := node.id
            allocated := jsFloor (b / (nodes.length : Rat))
            used := natOrQ node.estimatedTokens
              (jsFloor (jsFloor (b / (nodes.length : Rat)) * 0.8))
            priority := pr
            compressible := cp
            compressionFactor := 1 })
        = (nodes.length : Rat) * jsFloor (b / (nodes.length : Rat)) :=
          allocatedSum_map_const nodes _ _ (fun x => rfl)
      _ ≤ (nodes.length : Rat) * (b / (nodes.length : Rat)) :=
          mul_le_mul_of_nonneg_left (jsFloor_le _) (le_of_lt hn)
      _ = b := by
          rw [mul_comm]
          exact div_mul_cancel₀ b (ne_of_gt hn)

theorem allocateByAltitude_sum_le (nodes : List PromptNode) (b : Rat) (hb : 0 ≤ b) :
    allocatedSum (ContextManager.allocateByAltitude nodes b) ≤ b := by
  unfold ContextManager.allocateByAltitude altitudeList
  simp only [List.flatMap_cons, List.flatMap_nil, List.append_nil]
  rw [allocatedSum_append, allocatedSum_append, allocatedSum_append,
    allocatedSum_append]
  have h1 := allocateEqually_sum_le
    (ContextManager.altitudeGroup nodes PromptAltitude.META)
    (b * ContextManager.altitudeWeight PromptAltitude.META)
    (ContextManager.altitudeToPriority PromptAltitude.META)
    (ContextManager.isAltitudeCompressible PromptAltitude.META)
    (mul_nonneg hb (by norm_num [ContextManager.altitudeWeight]))
  have h2 := allocateEqually_sum_le
    (ContextManager.altitudeGroup nodes PromptAltitude.STRATEGIC)
    (b * ContextManager.altitudeWeight PromptAltitude.STRATEGIC)
    (ContextManager.altitudeToPriority PromptAltitude.STRATEGIC)
    (ContextManager.isAltitudeCompressible PromptAltitude.STRATEGIC)
    (mul_nonneg hb (by norm_num [ContextManager.altitudeWeight]))
  have h3 := allocateEqually_sum_le
    (ContextManager.altitudeGroup nodes PromptAltitude.TACTICAL)
    (b * ContextManager.altitudeWeight PromptAltitude.TACTICAL)
    (ContextManager.altitudeToPriority PromptAltitude.TACTICAL)
    (ContextManager.isAltitudeCompressible PromptAltitude.TACTICAL)
    (mul_nonneg hb (by norm_num [ContextManager.altitudeWeight]))
  have h4 := allocateEqually_sum_le
    (ContextManager.altitudeGroup nodes PromptAltitude.OPERATIONAL)
    (b * ContextManager.altitudeWeight PromptAltitude.OPERATIONAL)
    (ContextManager.altitudeToPriority PromptAltitude.OPERATIONAL)
    (ContextManager.isAltitudeCompressible PromptAltitude.OPERATIONAL)
    (mul_nonneg hb (by norm_num [ContextManager.altitudeWeight]))
  have h5 := allocateEqually_sum_le
    (ContextManager.altitudeGroup nodes PromptAltitude.IMPLEMENTATION)
    (b * ContextManager.altitudeWeight PromptAltitude.IMPLEMENTATION)
    (ContextManager.altitudeToPriority PromptAltitude.IMPLEMENTATION)
    (ContextManager.isAltitudeCompressible PromptAltitude.IMPLEMENTATION)
    (mul_nonneg hb (by norm_num [ContextManager.altitudeWeight]))
  simp only [ContextManager.altitudeWeight] at h1 h2 h3 h4 h5 ⊢
  linarith

theorem prioOf_pos (n : PromptNode) : (1 : Rat) ≤ ContextManager.prioOf n := by
  unfold ContextManager.prioOf natOr
  cases h : n.contextPriority with
  | none =>
    show (1 : Rat) ≤ ((50 : Nat) : Rat)
    norm_num
  | some k =>
    show (1 : Rat) ≤ (((if k = 0 then 50 else k) : Nat) : Rat)
    by_cases hk : k = 0
    · rw [if_pos hk]
      norm_num
    · rw [if_neg hk]
      exact_mod_cast Nat.one_le_iff_ne_zero.mpr hk

theorem allocateByPriority_sum_le (nodes : List PromptNode) (b : Rat) (hb : 0 ≤ b) :
    allocatedSum (ContextManager.allocateByPriority nodes b) ≤ b := by
  unfold ContextManager.allocateByPriority
  cases hn : nodes with
  | nil => simpa [allocatedSum] using hb
  | cons n0 rest =>
    have hPpos : (0 : Rat) < ((n0 :: rest).map ContextManager.prioOf).sum := by
      apply List.sum_pos
      · intro q hq
        obtain ⟨m, _, hm⟩ := List.mem_map.mp hq
        rw [← hm]
        exact lt_of_lt_of_le one_pos (prioOf_pos m)
      · simp
    set P : Rat := ((n0 :: rest).map ContextManager.prioOf).sum with hP
    have hsum1 : allocatedSum ((n0 :: rest).map fun node =>
        { nodeId := node.id
          allocated := jsFloor (ContextManager.prioOf node / P * b)
          used := natOrQ node.estimatedTokens
            (jsFloor (ContextManager.prioOf node / P * b * 0.8))
          priority := ContextManager.prioOf node
          compressible := node.compressionHint ≠ some CompressionHint.preserve
          compressionFactor := 1 }) =
        ((n0 :: rest).map fun node =>
          jsFloor (ContextManager.prioOf node / P * b)).sum := by
      unfold allocatedSum
      rw [List.map_map]
      apply congrArg List.sum
      apply List.map_congr_left
      intro i _
      rfl
    rw [hsum1]
    calc ((n0 :: rest).map fun node =>
          jsFloor (ContextManager.prioOf node / P * b)).sum
        ≤ ((n0 :: rest).map fun node =>
            ContextManager.prioOf node / P * b).sum := by
          apply List.sum_le_sum
          intro i _
          exact jsFloor_le _
      _ = ((n0 :: rest).map fun node =>
            ContextManager.prioOf node * (b / P)).sum := by
          apply congrArg
          apply List.map_congr_left
          intro i _
          ring
      _ = ((n0 :: rest).map ContextManager.prioOf).sum * (b / P) :=
          List.sum_map_mul_right _ _ _
      _ = P * (b / P) := by rw [← hP]
      _ = b := by
          rw [mul_comm]
          exact div_mul_cancel₀ b (ne_of_gt hPpos)

/-- C6: each allocation pass individually stays within its reserve: the
scope pass spends at most `0.3 * totalBudget`, the altitude pass at most
`0.4 * totalBudget`, the priority pass at most `0.3 * totalBudget`
(flooring only rounds down). -/
theorem claim6_pass_reserve_bounds (nodes : List PromptNode) (T : Rat)
    (hT : 0 < T) :
    allocatedSum (ContextManager.allocateEqually
      (nodes.filter fun n => n.scope = some PromptScope.GLOBAL)
      (T * 0.3) 100 false) ≤ 0.3 * T ∧
    allocatedSum (ContextManager.allocateByAltitude nodes (T * 0.4)) ≤ 0.4 * T ∧
    allocatedSum (ContextManager.allocateByPriority nodes (T * 0.3)) ≤ 0.3 * T := by
  have h3 : (0 : Rat) ≤ T * 0.3 := mul_nonneg (le_of_lt hT) (by norm_num)
  have h4 : (0 : Rat) ≤ T * 0.4 := mul_nonneg (le_of_lt hT) (by norm_num)
  refine ⟨?_, ?_, ?_⟩
  · have h := allocateEqually_sum_le
      (nodes.filter fun n => n.scope = some PromptScope.GLOBAL) (T * 0.3) 100 false h3
    linarith
  · have h := allocateByAltitude_sum_le nodes (T * 0.4) h4
    linarith
  · have h := allocateByPriority_sum_le nodes (T * 0.3) h3
    linarith

/-- C6 witness: the three bounds at a concrete node set and budget 1000. -/
theorem claim6_pass_reserve_bounds_witness :
    allocatedSum (ContextManager.allocateEqually
      (([{ baseNode "w6" with scope := some PromptScope.GLOBAL }] :
        List PromptNode).filter fun n => n.scope = some PromptScope.GLOBAL)
      (1000 * 0.3) 100 false) ≤ 0.3 * 1000 ∧
    allocatedSum (ContextManager.allocateByAltitude
      [{ baseNode "w6" with scope := some PromptScope.GLOBAL }] (1000 * 0.4)) ≤
      0.4 * 1000 ∧
    allocatedSum (ContextManager.allocateByPriority
      [{ baseNode "w6" with scope := some PromptScope.GLOBAL }] (1000 * 0.3)) ≤
      0.3 * 1000 :=
  claim6_pass_reserve_bounds
    [{ baseNode "w6" with scope := some PromptScope.GLOBAL }] 1000 (by norm_num)

/-! ## Claim C7 (specificity/flexibility ranges) -/

/-- Spec-side rendering of the amended C7 wording: the range is the
min/max/avg over the strictly positive values of the input (the input
being the per-node DEFAULTED field values), and the `(0, 1, 0.5)`
neutral default applies exactly when no value is positive. -/
def rangeOfPositiveValues (vals : List Rat) : RangeStat :=
  let pos := vals.filter fun v => v > 0
  if pos.length = 0 then RangeStat.mk 0 1 0.5
  else RangeStat.mk (listMinQ pos) (listMaxQ pos) (pos.sum / (pos.length : Rat))

/-- C7 (amended): for EVERY node collection, `specificityRange` and
`flexibilityRange` are the min/max/avg over the strictly positive
defaulted values, where each node contributes `specificity || 0.5`
(resp. `flexibility || 0.5`) — so an absent (or zero) field contributes
the neutral `0.5`, which passes the positivity filter — and the
`(0, 1, 0.5)` default appears exactly when no defaulted value is
positive, e.g. on the empty node list. -/
theorem claim7_range_default_amended (nodes : List PromptNode)
    (edges : List PromptEdge) :
    (HierarchyAnalyzer.calculateMetrics nodes edges).specificityRange =
      rangeOfPositiveValues (nodes.map fun n => jsOrQ n.specificity 0.5) ∧
    (HierarchyAnalyzer.calculateMetrics nodes edges).flexibilityRange =
      rangeOfPositiveValues (nodes.map fun n => jsOrQ n.flexibility 0.5) := by
  constructor
  · simp only [HierarchyAnalyzer.calculateMetrics, rangeOfPositiveValues]
    generalize ((nodes.map fun n => jsOrQ n.specificity 0.5).filter
      fun s => s > 0) = L
    by_cases h0 : L.length = 0
    · simp [h0]
    · simp [h0, Nat.pos_of_ne_zero h0]
  · simp only [HierarchyAnalyzer.calculateMetrics, rangeOfPositiveValues]
    generalize ((nodes.map fun n => jsOrQ n.flexibility 0.5).filter
      fun f => f > 0) = L
    by_cases h0 : L.length = 0
    · simp [h0]
    · simp [h0, Nat.pos_of_ne_zero h0]

/-- C7 witness input: a node with both fields defined (specificity 0.2,
flexibility 0.9), mixed below with a node lacking both. -/
def c7mixedDefined : PromptNode :=
  { baseNode "m1" with specificity := some 0.2, flexibility := some 0.9 }

/-- C7 witness: on a MIXED collection (one node with the fields defined,
one without), the defined node contributes its own values and the
field-less node contributes the 0.5 default — specificity range
(0.2, 0.5, 0.35), flexibility range (0.5, 0.9, 0.7) — and the empty
collection yields the `(0, 1, 0.5)` default. -/
theorem claim7_range_default_witness :
    (HierarchyAnalyzer.calculateMetrics [c7mixedDefined, baseNode "m2"]
      []).specificityRange = RangeStat.mk 0.2 0.5 0.35 ∧
    (HierarchyAnalyzer.calculateMetrics [c7mixedDefined, baseNode "m2"]
      []).flexibilityRange = RangeStat.mk 0.5 0.9 0.7 ∧
    (HierarchyAnalyzer.calculateMetrics ([] : List PromptNode)
      []).specificityRange = RangeStat.mk 0 1 0.5 := by
  have h1 := claim7_range_default_amended [c7mixedDefined, baseNode "m2"] []
  have h2 := claim7_range_default_amended ([] : List PromptNode) []
  refine ⟨?_, ?_, ?_⟩
  · rw [h1.1]
    decide
  · rw [h1.2]
    decide
  · rw [h2.1]
    decide

/-! ## Claims C4 and C9 (per-pair hierarchy detectors) -/

theorem flatMap_filter_nil {α β : Type} (l : List α) (f : α → List β) (p : β → Bool)
    (h : ∀ x ∈ l, (f x).filter p = []) : (l.flatMap f).filter p = [] := by
  induction l with
  | nil => rfl
  | cons a t ih =>
    rw [List.flatMap_cons, List.filter_append, h a (List.mem_cons_self a t),
      ih fun x hx => h x (List.mem_cons_of_mem a hx)]
    rfl

theorem flatMap_filter_single {α β : Type} (l : List α) (f : α → List β)
    (p : β → Bool) (c : α) (hnd : l.Nodup) (hc : c ∈ l)
    (h : ∀ x ∈ l, x ≠ c → (f x).filter p = []) :
    (l.flatMap f).filter p = (f c).filter p := by
  induction l with
  | nil => exact absurd hc (List.not_mem_nil c)
  | cons a t ih =>
    rw [List.flatMap_cons, List.filter_append]
    rcases List.mem_cons.mp hc with hca | hct
    · have hnotin : a ∉ t := (List.nodup_cons.mp hnd).1
      rw [← hca] at hnotin
      subst hca
      rw [flatMap_filter_nil t f p fun x hx =>
        h x (List.mem_cons_of_mem c hx) fun he => hnotin (he ▸ hx)]
      rw [List.append_nil]
    · have ha : a ≠ c := by
        intro hac
        subst hac
        exact (List.nodup_cons.mp hnd).1 hct
      rw [h a (List.mem_cons_self a t) ha, List.nil_append]
      exact ih (List.nodup_cons.mp hnd).2 hct fun x hx hxc =>
        h x (List.mem_cons_of_mem a hx) hxc

theorem altitudeCheck_shape (nodes : List PromptNode) (x : PromptNode)
    (cf : Conflict) (hcf : cf ∈ ConflictDetector.altitudeCheck nodes x) :
    ∃ q, cf.nodeIds = [x.id, q] := by
  unfold ConflictDetector.altitudeCheck at hcf
  split at hcf
  · split at hcf
    · exact absurd hcf (List.not_mem_nil cf)
    · split at hcf
      · split at hcf
        · split at hcf
          · rw [List.mem_singleton] at hcf
            subst hcf
            exact ⟨_, rfl⟩
          · exact absurd hcf (List.not_mem_nil cf)
        · exact absurd hcf (List.not_mem_nil cf)
      · exact absurd hcf (List.not_mem_nil cf)
  · exact absurd hcf (List.not_mem_nil cf)

theorem scopeCheck_shape (nodes : List PromptNode) (x : PromptNode)
    (cf : Conflict) (hcf : cf ∈ ConflictDetector.scopeCheck nodes x) :
    ∃ q, cf.nodeIds = [x.id, q] := by
  unfold ConflictDetector.scopeCheck at hcf
  split at hcf
  · split at hcf
    · exact absurd hcf (List.not_mem_nil cf)
    · split at hcf
      · split at hcf
        · split at hcf
          · rw [List.mem_singleton] at hcf
            subst hcf
            exact ⟨_, rfl⟩
          · exact absurd hcf (List.not_mem_nil cf)
        · exact absurd hcf (List.not_mem_nil cf)
      · exact absurd hcf (List.not_mem_nil cf)
  · exact absurd hcf (List.not_mem_nil cf)

theorem priorityCheck_shape (nodes : List PromptNode) (x : PromptNode)
    (cf : Conflict) (hcf : cf ∈ ConflictDetector.priorityCheck nodes x) :
    ∃ q, cf.nodeIds = [x.id, q] := by
  unfold ConflictDetector.priorityCheck at hcf
  split at hcf
  · split at hcf
    · exact absurd hcf (List.not_mem_nil cf)
    · split at hcf
      · split at hcf
        · split at hcf
          · rw [List.mem_singleton] at hcf
            subst hcf
            exact ⟨_, rfl⟩
          · exact absurd hcf (List.not_mem_nil cf)
        · exact absurd hcf (List.not_mem_nil cf)
      · exact absurd hcf (List.not_mem_nil cf)
  · exact absurd hcf (List.not_mem_nil cf)

theorem depthCheck_shape (nodes : List PromptNode) (x : PromptNode)
    (cf : Conflict) (hcf : cf ∈ ConflictDetector.depthCheck nodes x) :
    ∃ q, cf.nodeIds = [x.id, q] := by
  unfold ConflictDetector.depthCheck at hcf
  split at hcf
  · split at hcf
    · split at hcf
      · split at hcf
        · rw [List.mem_singleton] at hcf
          subst hcf
          exact ⟨_, rfl⟩
        · exact absurd hcf (List.not_mem_nil cf)
      · exact absurd hcf (List.not_mem_nil cf)
    · exact absurd hcf (List.not_mem_nil cf)
  · exact absurd hcf (List.not_mem_nil cf)

theorem hasHierarchy_of_parent (nodes : List PromptNode) (c : PromptNode)
    (hc : c ∈ nodes) (pid : String) (hpid : c.parentId = some pid)
    (hne : pid ≠ "") : hasHierarchy nodes = true := by
  unfold hasHierarchy
  rw [List.any_eq_true]
  refine ⟨c, hc, ?_⟩
  rw [hpid]
  have : jsTruthyStr (some pid) = true := by
    unfold jsTruthyStr
    rw [Bool.not_eq_true']
    exact Bool.eq_false_iff.mpr fun hemp => hne ((String.isEmpty_iff pid).mp hemp)
  rw [this]
  rfl

theorem detectHierarchyConflicts_decomp (nodes : List PromptNode)
    (h : hasHierarchy nodes = true) :
    ConflictDetector.detectHierarchyConflicts nodes =
      ConflictDetector.detectParentChildPriorityMismatch nodes ++
      ConflictDetector.detectAltitudeInconsistency nodes ++
      ConflictDetector.detectScopeConflicts nodes ++
      ConflictDetector.detectCircularParentReferences nodes ++
      ConflictDetector.detectDepthInconsistency nodes := by
  unfold ConflictDetector.detectHierarchyConflicts
  rw [h]
  rfl

/-- C4: for a parent/child pair linked by `parentId` (parent found by id
lookup), equal altitude produces no altitude conflict for the pair and
equal scope no scope conflict; a strictly more abstract child produces
exactly one altitude conflict for the pair, of high severity, and a
strictly broader child exactly one scope conflict, of medium severity;
`detectHierarchyConflicts` is exactly the concatenation of the five
hierarchy detectors on such an input. -/
theorem claim4_altitude_scope_boundary
    (nodes : List PromptNode) (c p : PromptNode) (pid : String)
    (hnd : (nodes.map PromptNode.id).Nodup)
    (hc : c ∈ nodes)
    (hpid : c.parentId = some pid) (hne : pid ≠ "")
    (hfind : nodes.find? (fun n => n.id = pid) = some p) :
    ConflictDetector.detectHierarchyConflicts nodes =
      ConflictDetector.detectParentChildPriorityMismatch nodes ++
      ConflictDetector.detectAltitudeInconsistency nodes ++
      ConflictDetector.detectScopeConflicts nodes ++
      ConflictDetector.detectCircularParentReferences nodes ++
      ConflictDetector.detectDepthInconsistency nodes ∧
    (∀ ca pa, c.altitude = some ca → p.altitude = some pa →
        altitudeOrder.indexOf ca = altitudeOrder.indexOf pa →
        (ConflictDetector.detectAltitudeInconsistency nodes).filter
          (fun cf => cf.nodeIds = [c.id, p.id]) = []) ∧
    (∀ cs ps, c.scope = some cs → p.scope = some ps →
        scopeOrder.indexOf cs = scopeOrder.indexOf ps →
        (ConflictDetector.detectScopeConflicts nodes).filter
          (fun cf => cf.nodeIds = [c.id, p.id]) = []) ∧
    (∀ ca pa, c.altitude = some ca → p.altitude = some pa →
        altitudeOrder.indexOf ca < altitudeOrder.indexOf pa →
        (ConflictDetector.detectAltitudeInconsistency nodes).filter
          (fun cf => cf.nodeIds = [c.id, p.id]) =
          [ConflictDetector.altitudeConflict c p] ∧
        (ConflictDetector.altitudeConflict c p).severity = Severity.high) ∧
    (∀ cs ps, c.scope = some cs → p.scope = some ps →
        scopeOrder.indexOf cs > scopeOrder.indexOf ps →
        (ConflictDetector.detectScopeConflicts nodes).filter
          (fun cf => cf.nodeIds = [c.id, p.id]) =
          [ConflictDetector.scopeConflict c p] ∧
        (ConflictDetector.scopeConflict c p).severity = Severity.medium) := by
  have hinj := List.inj_on_of_nodup_map hnd
  have hother_alt : ∀ x ∈ nodes, x ≠ c →
      (ConflictDetector.altitudeCheck nodes x).filter
        (fun cf => cf.nodeIds = [c.id, p.id]) = [] := by
    intro x hx hxc
    rw [List.filter_eq_nil_iff]
    intro cf hcf
    obtain ⟨q, hq⟩ := altitudeCheck_shape nodes x cf hcf
    simp only [hq, decide_eq_true_eq, List.cons.injEq]
    intro hEq
    exact hxc (hinj hx hc hEq.1)
  have hother_scope : ∀ x ∈ nodes, x ≠ c →
      (ConflictDetector.scopeCheck nodes x).filter
        (fun cf => cf.nodeIds = [c.id, p.id]) = [] := by
    intro x hx hxc
    rw [List.filter_eq_nil_iff]
    intro cf hcf
    obtain ⟨q, hq⟩ := scopeCheck_shape nodes x cf hcf
    simp only [hq, decide_eq_true_eq, List.cons.injEq]
    intro hEq
    exact hxc (hinj hx hc hEq.1)
  have hcalt : ∀ ca pa, c.altitude = some ca → p.altitude = some pa →
      ConflictDetector.altitudeCheck nodes c =
        (if altitudeOrder.indexOf ca < altitudeOrder.indexOf pa then
          [ConflictDetector.altitudeConflict c p] else []) := by
    intro ca pa ha hpa
    unfold ConflictDetector.altitudeCheck
    simp only [hpid, ha, hfind, hpa, hne]
    simp
  have hcscope : ∀ cs ps, c.scope = some cs → p.scope = some ps →
      ConflictDetector.scopeCheck nodes c =
        (if scopeOrder.indexOf cs > scopeOrder.indexOf ps then
          [ConflictDetector.scopeConflict c p] else []) := by
    intro cs ps hs hps
    unfold ConflictDetector.scopeCheck
    simp only [hpid, hs, hfind, hps, hne]
    simp
  refine ⟨detectHierarchyConflicts_decomp nodes
    (hasHierarchy_of_parent nodes c hc pid hpid hne), ?_, ?_, ?_, ?_⟩
  · intro ca pa ha hpa hEq
    unfold ConflictDetector.detectAltitudeInconsistency
    rw [flatMap_filter_single nodes _ _ c (List.Nodup.of_map _ hnd) hc hother_alt]
    rw [hcalt ca pa ha hpa, if_neg (by rw [hEq]; exact lt_irrefl _)]
    rfl
  · intro cs ps hs hps hEq
    unfold ConflictDetector.detectScopeConflicts
    rw [flatMap_filter_single nodes _ _ c (List.Nodup.of_map _ hnd) hc hother_scope]
    rw [hcscope cs ps hs hps, if_neg (by rw [hEq]; exact lt_irrefl _)]
    rfl
  · intro ca pa ha hpa hlt
    refine ⟨?_, rfl⟩
    unfold ConflictDetector.detectAltitudeInconsistency
    rw [flatMap_filter_single nodes _ _ c (List.Nodup.of_map _ hnd) hc hother_alt]
    rw [hcalt ca pa ha hpa, if_pos hlt]
    rw [List.filter_cons_of_pos (by simp [ConflictDetector.altitudeConflict])]
    rfl
  · intro cs ps hs hps hgt
    refine ⟨?_, rfl⟩
    unfold ConflictDetector.detectScopeConflicts
    rw [flatMap_filter_single nodes _ _ c (List.Nodup.of_map _ hnd) hc hother_scope]
    rw [hcscope cs ps hs hps, if_pos hgt]
    rw [List.filter_cons_of_pos (by simp [ConflictDetector.scopeConflict])]
    rfl

/-- C4 witness input: child exactly as abstract/broad as its parent. -/
def c4childEq : PromptNode :=
  { baseNode "c" with
      parentId := some "p"
      altitude := some PromptAltitude.TACTICAL
      scope := some PromptScope.TASK }

/-- C4 witness input: the parent of `c4childEq`. -/
def c4parentEq : PromptNode :=
  { baseNode "p" with
      altitude := some PromptAltitude.TACTICAL
      scope := some PromptScope.TASK }

/-- C4 witness input: child strictly more abstract and broader. -/
def c4childStrict : PromptNode :=
  { baseNode "c" with
      parentId := some "p"
      altitude := some PromptAltitude.STRATEGIC
      scope := some PromptScope.SESSION }

/-- C4 witness input: the parent of `c4childStrict`. -/
def c4parentStrict : PromptNode :=
  { baseNode "p" with
      altitude := some PromptAltitude.TACTICAL
      scope := some PromptScope.TASK }

/-- C4 witness: the boundary behaviour at two concrete pairs — equal
altitude/scope yields no conflict, strict inversion yields exactly the one
expected conflict. -/
theorem claim4_altitude_scope_boundary_witness :
    (ConflictDetector.detectAltitudeInconsistency [c4childEq, c4parentEq]).filter
      (fun cf => cf.nodeIds = [c4childEq.id, c4parentEq.id]) = [] ∧
    (ConflictDetector.detectScopeConflicts [c4childEq, c4parentEq]).filter
      (fun cf => cf.nodeIds = [c4childEq.id, c4parentEq.id]) = [] ∧
    (ConflictDetector.detectAltitudeInconsistency
        [c4childStrict, c4parentStrict]).filter
      (fun cf => cf.nodeIds = [c4childStrict.id, c4parentStrict.id]) =
      [ConflictDetector.altitudeConflict c4childStrict c4parentStrict] ∧
    (ConflictDetector.detectScopeConflicts [c4childStrict, c4parentStrict]).filter
      (fun cf => cf.nodeIds = [c4childStrict.id, c4parentStrict.id]) =
      [ConflictDetector.scopeConflict c4childStrict c4parentStrict] := by
  have hE := claim4_altitude_scope_boundary [c4childEq, c4parentEq]
    c4childEq c4parentEq "p" (by decide) (by decide) rfl (by decide) (by decide)
  have hS := claim4_altitude_scope_boundary [c4childStrict, c4parentStrict]
    c4childStrict c4parentStrict "p" (by decide) (by decide) rfl (by decide)
    (by decide)
  exact ⟨hE.2.1 _ _ rfl rfl (by decide), hE.2.2.1 _ _ rfl rfl (by decide),
    (hS.2.2.2.1 _ _ rfl rfl (by decide)).1, (hS.2.2.2.2 _ _ rfl rfl (by decide)).1⟩

/-- C9: a node whose `parentId` resolves to no node in the collection is
skipped by every per-pair detector: no priority-mismatch, altitude, scope
or depth conflict has it in child position, and `detectHierarchyConflicts`
(a total function — nothing can fail) is exactly the concatenation of the
five detectors. -/
theorem claim9_dangling_parent_skipped
    (nodes : List PromptNode) (c : PromptNode) (pid : String)
    (hnd : (nodes.map PromptNode.id).Nodup) (hc : c ∈ nodes)
    (hpid : c.parentId = some pid) (hne : pid ≠ "")
    (hfind : nodes.find? (fun n => n.id = pid) = none) :
    ConflictDetector.detectHierarchyConflicts nodes =
      ConflictDetector.detectParentChildPriorityMismatch nodes ++
      ConflictDetector.detectAltitudeInconsistency nodes ++
      ConflictDetector.detectScopeConflicts nodes ++
      ConflictDetector.detectCircularParentReferences nodes ++
      ConflictDetector.detectDepthInconsistency nodes ∧
    (ConflictDetector.detectParentChildPriorityMismatch nodes).filter
      (fun cf => cf.nodeIds.head? = some c.id) = [] ∧
    (ConflictDetector.detectAltitudeInconsistency nodes).filter
      (fun cf => cf.nodeIds.head? = some c.id) = [] ∧
    (ConflictDetector.detectScopeConflicts nodes).filter
      (fun cf => cf.nodeIds.head? = some c.id) = [] ∧
    (ConflictDetector.detectDepthInconsistency nodes).filter
      (fun cf => cf.nodeIds.head? = some c.id) = [] := by
  have hinj := List.inj_on_of_nodup_map hnd
  refine ⟨detectHierarchyConflicts_decomp nodes
    (hasHierarchy_of_parent nodes c hc pid hpid hne), ?_, ?_, ?_, ?_⟩
  · unfold ConflictDetector.detectParentChildPriorityMismatch
    apply flatMap_filter_nil
    intro x hx
    by_cases hxc : x = c
    · subst hxc
      have hempty : ConflictDetector.priorityCheck nodes x = [] := by
        unfold ConflictDetector.priorityCheck
        cases hcp : x.contextPriority with
        | none => simp [hpid]
        | some k => simp [hpid, hcp, hne, hfind]
      rw [hempty]
      rfl
    · rw [List.filter_eq_nil_iff]
      intro cf hcf
      obtain ⟨q, hq⟩ := priorityCheck_shape nodes x cf hcf
      simp only [hq, List.head?_cons, Option.some.injEq, decide_eq_true_eq]
      intro hEq
      exact hxc (hinj hx hc hEq)
  · unfold ConflictDetector.detectAltitudeInconsistency
    apply flatMap_filter_nil
    intro x hx
    by_cases hxc : x = c
    · subst hxc
      have hempty : ConflictDetector.altitudeCheck nodes x = [] := by
        unfold ConflictDetector.altitudeCheck
        cases ha : x.altitude with
        | none => simp [hpid]
        | some a => simp [hpid, ha, hne, hfind]
      rw [hempty]
      rfl
    · rw [List.filter_eq_nil_iff]
      intro cf hcf
      obtain ⟨q, hq⟩ := altitudeCheck_shape nodes x cf hcf
      simp only [hq, List.head?_cons, Option.some.injEq, decide_eq_true_eq]
      intro hEq
      exact hxc (hinj hx hc hEq)
  · unfold ConflictDetector.detectScopeConflicts
    apply flatMap_filter_nil
    intro x hx
    by_cases hxc : x = c
    · subst hxc
      have hempty : ConflictDetector.scopeCheck nodes x = [] := by
        unfold ConflictDetector.scopeCheck
        cases hs : x.scope with
        | none => simp [hpid]
        | some s => simp [hpid, hs, hne, hfind]
      rw [hempty]
      rfl
    · rw [List.filter_eq_nil_iff]
      intro cf hcf
      obtain ⟨q, hq⟩ := scopeCheck_shape nodes x cf hcf
      simp only [hq, List.head?_cons, Option.some.injEq, decide_eq_true_eq]
      intro hEq
      exact hxc (hinj hx hc hEq)
  · unfold ConflictDetector.detectDepthInconsistency
    apply flatMap_filter_nil
    intro x hx
    by_cases hxc : x = c
    · subst hxc
      have hempty : ConflictDetector.depthCheck nodes x = [] := by
        unfold ConflictDetector.depthCheck
        cases hd : x.depth with
        | none => simp [hpid]
        | some d => simp [hpid, hd, hfind]
      rw [hempty]
      rfl
    · rw [List.filter_eq_nil_iff]
      intro cf hcf
      obtain ⟨q, hq⟩ := depthCheck_shape nodes x cf hcf
      simp only [hq, List.head?_cons, Option.some.injEq, decide_eq_true_eq]
      intro hEq
      exact hxc (hinj hx hc hEq)

/-- C9 witness input: a node whose parent reference dangles. -/
def c9node : PromptNode :=
  { baseNode "c" with
      parentId := some "ghost"
      contextPriority := some 5
      altitude := some PromptAltitude.TACTICAL
      scope := some PromptScope.TASK
      depth := some 3 }

/-- C9 witness: the dangling-parent node yields no per-pair conflict. -/
theorem claim9_dangling_parent_witness :
    (ConflictDetector.detectParentChildPriorityMismatch [c9node]).filter
      (fun cf => cf.nodeIds.head? = some c9node.id) = [] ∧
    (ConflictDetector.detectAltitudeInconsistency [c9node]).filter
      (fun cf => cf.nodeIds.head? = some c9node.id) = [] ∧
    (ConflictDetector.detectScopeConflicts [c9node]).filter
      (fun cf => cf.nodeIds.head? = some c9node.id) = [] ∧
    (ConflictDetector.detectDepthInconsistency [c9node]).filter
      (fun cf => cf.nodeIds.head? = some c9node.id) = [] := by
  have h := claim9_dangling_parent_skipped [c9node] c9node "ghost"
    (by decide) (by decide) rfl (by decide) (by decide)
  exact ⟨h.2.1, h.2.2.1, h.2.2.2.1, h.2.2.2.2⟩
